import Mathlib

/-
Verification development for the pointer/touch interaction layer of the
readest reading application.

Shallow embedding setup, by source file:

ImageViewer.tsx (namespace ImageViewer): the viewport transform engine.
Numbers are modelled as rationals.  The one JavaScript operation that has
no rational counterpart is Math.hypot (a square root); every definition
that needs it takes an arbitrary function hyp : Q -> Q -> Q standing for
the distance computation, and the theorems are proved for every such
function, which subsumes the real square root.  Division by zero follows
the Lean convention x / 0 = 0 (JavaScript would produce Infinity or NaN;
the claims under study are about the clamped results, which agree on all
inputs where JavaScript produces a finite number).  The zoom-label
auto-hide timeout and the React rendering are pure UI and carry no
transform state; the showZoomLabel flag itself is kept.

The iframe event handlers file (namespace Clicks): click disambiguation,
the long-hold veto, and the keyboard-modifier snapshot.  Timestamps are
naturals (milliseconds).  Timers are modelled deterministically: the
simulation processes a chronological list of external events, and before
handling an event at time t it fires every scheduled callback whose
deadline is at most t (a callback due exactly when an event arrives runs
first, and long-hold expirations run before deferred single-click
evaluations at the same instant).  An idealized timer runs exactly at its
deadline.  DOM queries made by the source (closest on selectors,
getAttribute) are modelled as oracle fields of the click target, since
their results are inputs to the logic under study.  The constants
DOUBLE_CLICK_INTERVAL_THRESHOLD_MS and LONG_HOLD_THRESHOLD live in a
configuration module outside the sources at hand; per the specification
they are externally supplied numeric knobs, so they appear as parameters
T and H of every definition.  The handlers that only forward geometry
(mouseup, wheel, touch forwarding) post messages but read and write no
classification state; their emissions are not tracked.

The same file also defines addLongPressListeners (namespace LongPress):
per-element long-press timers driven by press/move/up events, a mutation
observer, and a teardown closure.  Elements are modelled by an identity
node (id plus localName, src, outerHTML) together with the list of
ancestor nodes, which is what the closest calls traverse.  The source
compares Math.sqrt(dx^2 + dy^2) > moveThreshold; the model compares
dx^2 + dy^2 > moveThreshold^2, which is equivalent because both sides of
the original comparison are nonnegative.
-/

namespace ImageViewer

/-- MIN_SCALE from ImageViewer.tsx. -/
def MIN_SCALE : ℚ := 1 / 2

/-- MAX_SCALE from ImageViewer.tsx. -/
def MAX_SCALE : ℚ := 8

/-- ZOOM_SPEED from ImageViewer.tsx. -/
def ZOOM_SPEED : ℚ := 1 / 10

/-- MOBILE_ZOOM_SPEED from ImageViewer.tsx. -/
def MOBILE_ZOOM_SPEED : ℚ := 1 / 1000

/-- ZOOM_BIAS from ImageViewer.tsx. -/
def ZOOM_BIAS : ℚ := 21 / 20

/-- Result of getBoundingClientRect on the container. -/
structure Rect where
  left : ℚ
  top : ℚ
  width : ℚ
  height : ℚ
  deriving DecidableEq, Repr

/-- One touch point (clientX, clientY). -/
def Touch := ℚ × ℚ

deriving instance DecidableEq, Repr for Touch

/-- The component state of ImageViewer: scale, position, zoomSpeed and
isDragging are React state; dragStart, wasDragging and lastTouchDistance
are refs.  showZoomLabel is kept, its auto-hide timer is not (it touches
no transform state). -/
structure VState where
  scale : ℚ
  posX : ℚ
  posY : ℚ
  zoomSpeed : ℚ
  isDragging : Bool
  wasDragging : Bool
  dragStartX : ℚ
  dragStartY : ℚ
  lastTouchDistance : ℚ
  showZoomLabel : Bool
  deriving DecidableEq, Repr

/-- Initial state: useState(1), useState(0.1), position (0,0), refs zero. -/
def vInit : VState :=
  { scale := 1, posX := 0, posY := 0, zoomSpeed := ZOOM_SPEED,
    isDragging := false, wasDragging := false,
    dragStartX := 0, dragStartY := 0, lastTouchDistance := 0,
    showZoomLabel := true }

/-- getZoomedOffset from ImageViewer.tsx: anchor-preserving translation
update for a scale change. -/
def getZoomedOffset (anchorX anchorY currentScale nextScale : ℚ)
    (currentPos : ℚ × ℚ) : ℚ × ℚ :=
  let scaleChange := nextScale / currentScale
  (anchorX - (anchorX - currentPos.1) * scaleChange,
   anchorY - (anchorY - currentPos.2) * scaleChange)

/-- The viewer operations the event handlers implement.  Each constructor
carries the event data the corresponding handler reads. -/
inductive VOp where
  | zoomIn
  | zoomOut
  | resetZoom
  | reset
  | wheel (ctrlOrCmd : Bool) (deltaY clientX clientY : ℚ) (rect : Option Rect)
  | imageMouseDown (clientX clientY : ℚ)
  | imageMouseMove (clientX clientY : ℚ)
  | imageMouseUp
  | touchStart (touches : List Touch)
  | touchMove (touches : List Touch) (rect : Option Rect)
  | touchEnd (touches : List Touch)
  | doubleClick (clientX clientY : ℚ) (rect : Option Rect)
  deriving DecidableEq, Repr

/-- One step of the viewer: the handler for each operation, transcribed
from ImageViewer.tsx.  hyp models Math.hypot. -/
def vStep (hyp : ℚ → ℚ → ℚ) (s : VState) : VOp → VState
  | .zoomIn =>
      let newScale := min (s.scale + ZOOM_SPEED) MAX_SCALE
      { s with scale := newScale,
               zoomSpeed := ZOOM_SPEED * ZOOM_BIAS * newScale,
               showZoomLabel := true }
  | .zoomOut =>
      let newScale := max (s.scale - ZOOM_SPEED) MIN_SCALE
      if newScale ≤ 1 then
        { s with posX := 0, posY := 0, scale := newScale,
                 zoomSpeed := ZOOM_SPEED, showZoomLabel := true }
      else
        { s with scale := newScale,
                 zoomSpeed := ZOOM_SPEED * ZOOM_BIAS * newScale,
                 showZoomLabel := true }
  | .resetZoom =>
      { s with scale := 1, posX := 0, posY := 0, zoomSpeed := ZOOM_SPEED,
               showZoomLabel := true }
  | .reset =>
      { s with scale := 1, posX := 0, posY := 0, zoomSpeed := ZOOM_SPEED,
               showZoomLabel := true }
  | .wheel ctrlOrCmd deltaY clientX clientY rect =>
      if !ctrlOrCmd then s
      else match rect with
        | none => s
        | some r =>
          let delta := if 0 < deltaY then -s.zoomSpeed else s.zoomSpeed
          let newScale := min (max (s.scale + delta) MIN_SCALE) MAX_SCALE
          let newZoom := ZOOM_SPEED * ZOOM_BIAS * newScale
          if newScale ≤ 1 then
            { s with posX := 0, posY := 0, scale := newScale,
                     zoomSpeed := ZOOM_SPEED, showZoomLabel := true }
          else
            let mouseX := clientX - r.left - r.width / 2
            let mouseY := clientY - r.top - r.height / 2
            let p := getZoomedOffset mouseX mouseY s.scale newScale (s.posX, s.posY)
            { s with posX := p.1, posY := p.2, scale := newScale,
                     zoomSpeed := newZoom, showZoomLabel := true }
  | .imageMouseDown clientX clientY =>
      if s.isDragging || s.scale ≤ 1 then s
      else
        { s with isDragging := true, wasDragging := false,
                 dragStartX := clientX - s.posX, dragStartY := clientY - s.posY }
  | .imageMouseMove clientX clientY =>
      if !s.isDragging || s.scale ≤ 1 then s
      else
        { s with wasDragging := true,
                 posX := clientX - s.dragStartX, posY := clientY - s.dragStartY }
  | .imageMouseUp =>
      { s with isDragging := false }
  | .touchStart touches =>
      if touches.length = 1 ∧ 1 < s.scale then
        let s := { s with isDragging := true, wasDragging := false }
        match touches.head? with
        | none => s
        | some t =>
          { s with dragStartX := t.1 - s.posX, dragStartY := t.2 - s.posY }
      else if touches.length = 2 then
        let s := { s with isDragging := true, wasDragging := false }
        match touches[0]?, touches[1]? with
        | some t1, some t2 =>
          { s with lastTouchDistance := hyp (t1.1 - t2.1) (t1.2 - t2.2) }
        | _, _ => s
      else s
  | .touchMove touches rect =>
      if touches.length = 1 ∧ 1 < s.scale ∧ s.isDragging then
        let s := { s with wasDragging := true }
        match touches.head? with
        | none => s
        | some t =>
          { s with posX := t.1 - s.dragStartX, posY := t.2 - s.dragStartY }
      else if touches.length = 2 then
        let s := { s with wasDragging := true }
        match rect with
        | none => s
        | some r =>
          match touches[0]?, touches[1]? with
          | some t1, some t2 =>
            let currentDistance := hyp (t1.1 - t2.1) (t1.2 - t2.2)
            let distanceChange := currentDistance / s.lastTouchDistance
            let newScale := min (max (s.scale * distanceChange) MIN_SCALE) MAX_SCALE
            let newZoom := MOBILE_ZOOM_SPEED * ZOOM_BIAS * distanceChange
            if newScale ≤ 1 then
              { s with posX := 0, posY := 0, scale := newScale,
                       zoomSpeed := ZOOM_SPEED }
            else
              let touchX := (t1.1 + t2.1) / 2 - r.left - r.width / 2
              let touchY := (t1.2 + t2.2) / 2 - r.top - r.height / 2
              let p := getZoomedOffset touchX touchY s.scale newScale (s.posX, s.posY)
              { s with posX := p.1, posY := p.2, scale := newScale,
                       zoomSpeed := newZoom, lastTouchDistance := currentDistance }
          | _, _ => s
      else s
  | .touchEnd touches =>
      let s :=
        if touches.length = 1 then
          match touches.head? with
          | none => s
          | some t =>
            { s with dragStartX := t.1 - s.posX, dragStartY := t.2 - s.posY }
        else s
      if touches.length = 0 then { s with isDragging := false } else s
  | .doubleClick clientX clientY rect =>
      match rect with
      | none => s
      | some r =>
        if s.scale = 1 then
          let mouseX := clientX - r.left - r.width / 2
          let mouseY := clientY - r.top - r.height / 2
          let newScale : ℚ := 2
          let p := getZoomedOffset mouseX mouseY s.scale newScale (s.posX, s.posY)
          { s with posX := p.1, posY := p.2, scale := newScale,
                   showZoomLabel := true }
        else
          { s with scale := 1, posX := 0, posY := 0, zoomSpeed := ZOOM_SPEED,
                   showZoomLabel := true }

/-- Run a sequence of viewer operations from a state. -/
def vRun (hyp : ℚ → ℚ → ℚ) (s : VState) (ops : List VOp) : VState :=
  ops.foldl (vStep hyp) s

/-- The scale/translation invariant of the viewer. -/
def VInv (s : VState) : Prop :=
  MIN_SCALE ≤ s.scale ∧ s.scale ≤ MAX_SCALE ∧
    (s.scale ≤ 1 → s.posX = 0 ∧ s.posY = 0)

end ImageViewer

/-- A concrete dragging state used by the C10 witness: scale 2, position
(3, 4), drag in progress. -/
def c10state : ImageViewer.VState :=
  { ImageViewer.vInit with scale := 2, isDragging := true, posX := 3, posY := 4 }

/-- A concrete stand-in for Math.hypot used by the C10 witness. -/
def c10hyp : ℚ → ℚ → ℚ := fun _ _ => 0

namespace Clicks

/-- Modifier flags carried by a mouse, wheel or keyboard event. -/
structure KeyFlags where
  ctrlKey : Bool
  shiftKey : Bool
  altKey : Bool
  metaKey : Bool
  deriving DecidableEq, Repr

/-- The keyboardState snapshot of the iframe event handlers: last key and
code plus the four modifier flags. -/
structure KeyState where
  key : String
  code : String
  ctrlKey : Bool
  shiftKey : Bool
  altKey : Bool
  metaKey : Bool
  deriving DecidableEq, Repr

/-- getKeyStatus: with an event (which always carries ctrlKey), modifier
flags come live from the event while key and code come from the snapshot;
with no event the full snapshot is returned. -/
def getKeyStatus (ks : KeyState) (ev : Option KeyFlags) : KeyState :=
  match ev with
  | some f =>
      { key := ks.key, code := ks.code, ctrlKey := f.ctrlKey,
        shiftKey := f.shiftKey, altKey := f.altKey, metaKey := f.metaKey }
  | none => ks

/-- The pointer geometry copied into every posted click message. -/
structure Geom where
  screenX : Int
  screenY : Int
  clientX : Int
  clientY : Int
  offsetX : Int
  offsetY : Int
  deriving DecidableEq, Repr

/-- Attributes of the footnote container found by closest, as read by
getAttribute (none models a null attribute). -/
structure FootnoteAttrs where
  dataWrFooternote : Option String
  zyFootnote : Option String
  alt : Option String
  deriving DecidableEq, Repr

/-- Results of the DOM queries postSingleClick makes on the click target.
These are oracle inputs: closestInteractive is whether
closest with selector sup, a, audio, video found an element,
closestUnhrefFootnote is whether closest found an anchor of class
duokan-footnote lacking href, closestFootnote is the footnote container
found by the footnote-class selector together with its attributes, and
targetAlt is the alt attribute of the click target itself. -/
structure ClickTarget where
  closestInteractive : Bool
  closestUnhrefFootnote : Bool
  closestFootnote : Option FootnoteAttrs
  targetAlt : Option String
  deriving DecidableEq, Repr

/-- JavaScript a || b over a nullable attribute string: null and the
empty string are both falsy. -/
def jsOrStr (a : Option String) (d : String) : String :=
  match a with
  | none => d
  | some s => if s = "" then d else s

/-- The footnote text fallback chain of the footnote-popup dispatch. -/
def footnoteText (tgt : ClickTarget) (fn : FootnoteAttrs) : String :=
  jsOrStr fn.dataWrFooternote
    (jsOrStr fn.zyFootnote (jsOrStr fn.alt (jsOrStr tgt.targetAlt "")))

/-- The classified click events the handlers post (iframe-double-click,
iframe-single-click, footnote-popup). -/
inductive ClickEmit where
  | double (bookKey : String) (geom : Geom) (keys : KeyState)
  | single (bookKey : String) (geom : Geom) (keys : KeyState)
  | footnotePopup (bookKey : String) (text : String)
  deriving DecidableEq, Repr

/-- postSingleClick from handleClick: returns the event it posts, if any.
longHoldActive is whether the longHoldTimeout variable is non-null at the
moment this closure runs; ks is the keyboard snapshot at that moment. -/
def postSingleClick (longHoldActive : Bool) (ks : KeyState) (bookKey : String)
    (tgt : ClickTarget) (geom : Geom) (flags : KeyFlags) : Option ClickEmit :=
  if tgt.closestInteractive && !tgt.closestUnhrefFootnote then none
  else
    match tgt.closestFootnote with
    | some fn => some (.footnotePopup bookKey (footnoteText tgt fn))
    | none =>
      if !longHoldActive then none
      else some (.single bookKey geom (getKeyStatus ks (some flags)))

/-- A scheduled deferred single-click evaluation: the setTimeout callback
of handleClick, with the click data its closure captured. -/
structure PendingSingle where
  fireAt : Nat
  bookKey : String
  tgt : ClickTarget
  geom : Geom
  flags : KeyFlags
  deriving DecidableEq, Repr

/-- The module state of the iframe event handlers: lastClickTime and the
keyboard snapshot are module variables; lhArmed tracks whether
longHoldTimeout is non-null, lhNulls the deadlines of the long-hold
timers scheduled by handleMousedown (each sets the variable to null when
it runs), pendings the deferred single-click evaluations. -/
structure ClickSt where
  lastClickTime : Nat
  keyState : KeyState
  lhArmed : Bool
  lhNulls : List Nat
  pendings : List PendingSingle
  deriving DecidableEq, Repr

/-- Module-load state. -/
def clickInit : ClickSt :=
  { lastClickTime := 0,
    keyState := { key := "", code := "", ctrlKey := false, shiftKey := false,
                  altKey := false, metaKey := false },
    lhArmed := false, lhNulls := [], pendings := [] }

/-- Whether longHoldTimeout is still non-null when a callback runs at
time f: the variable holds a timer and no long-hold nulling callback runs
at or before f (nulling callbacks due at the same instant run first). -/
def armedAt (st : ClickSt) (f : Nat) : Bool :=
  st.lhArmed && st.lhNulls.all (fun n => decide (f < n))

/-- The deferred evaluation scheduled by handleClick, running at its
deadline p.fireAt: posts the single click only if no later click has
moved lastClickTime to within T of the deadline, via postSingleClick with
the longHoldTimeout status and keyboard snapshot of that moment. -/
def evalPending (T : Nat) (st : ClickSt) (p : PendingSingle) : Option ClickEmit :=
  if T ≤ p.fireAt - st.lastClickTime then
    postSingleClick (armedAt st p.fireAt) st.keyState p.bookKey p.tgt p.geom p.flags
  else none

/-- Run every timer callback due at or before the cutoff: long-hold
timers null the longHoldTimeout variable, deferred single-click
evaluations may post events.  Callback execution order cannot change
which single clicks fire, because the evaluations write no state read by
one another, so emissions are collected in scheduling order. -/
def runTimers (T cut : Nat) (st : ClickSt) : ClickSt × List ClickEmit :=
  ({ st with
     lhArmed := st.lhArmed && st.lhNulls.all (fun n => decide (cut < n)),
     lhNulls := st.lhNulls.filter (fun n => decide (cut < n)),
     pendings := st.pendings.filter (fun p => decide (cut < p.fireAt)) },
   (st.pendings.filter (fun p => decide (p.fireAt ≤ cut))).filterMap (evalPending T st))

/-- The external events delivered to the handlers, each with its
Date.now timestamp. -/
inductive CEvent where
  | keydown (key code : String) (flags : KeyFlags) (time : Nat)
  | keyup (key code : String) (flags : KeyFlags) (time : Nat)
  | mousedown (bookKey : String) (time : Nat)
  | click (bookKey : String) (doubleClickDisabled : Bool) (tgt : ClickTarget)
      (geom : Geom) (flags : KeyFlags) (time : Nat)
  deriving DecidableEq, Repr

/-- Timestamp of an event. -/
def CEvent.time : CEvent → Nat
  | .keydown _ _ _ t => t
  | .keyup _ _ _ t => t
  | .mousedown _ t => t
  | .click _ _ _ _ _ t => t

/-- Geometry of a click event, none for the other events. -/
def CEvent.clickGeom : CEvent → Option Geom
  | .click _ _ _ g _ _ => some g
  | _ => none

/-- Process one external event: first run the due timer callbacks, then
the handler (handleKeydown, handleKeyup, handleMousedown, handleClick),
transcribed from the source. -/
def clickStep (T H : Nat) (st : ClickSt) (ev : CEvent) : ClickSt × List ClickEmit :=
  let fired := runTimers T ev.time st
  let st := fired.1
  match ev with
  | .keydown k c f _ =>
      ({ st with keyState := { key := k, code := c, ctrlKey := f.ctrlKey,
                               shiftKey := f.shiftKey, altKey := f.altKey,
                               metaKey := f.metaKey } }, fired.2)
  | .keyup _ _ f _ =>
      ({ st with keyState := { key := "", code := "", ctrlKey := f.ctrlKey,
                               shiftKey := f.shiftKey, altKey := f.altKey,
                               metaKey := f.metaKey } }, fired.2)
  | .mousedown _ t =>
      ({ st with lhArmed := true, lhNulls := st.lhNulls ++ [t + H] }, fired.2)
  | .click bookKey disabled tgt geom flags t =>
      if !disabled && decide (t - st.lastClickTime < T) then
        ({ st with lastClickTime := t },
         fired.2 ++ [.double bookKey geom (getKeyStatus st.keyState (some flags))])
      else
        let st := { st with lastClickTime := t }
        if !disabled then
          ({ st with pendings := st.pendings ++
              [{ fireAt := t + T, bookKey := bookKey, tgt := tgt,
                 geom := geom, flags := flags }] }, fired.2)
        else
          (st, fired.2 ++ (postSingleClick st.lhArmed st.keyState bookKey tgt geom flags).toList)

/-- Process a chronological event list, accumulating emissions. -/
def clickRun (T H : Nat) (st : ClickSt) (evs : List CEvent) : ClickSt × List ClickEmit :=
  evs.foldl (fun acc ev =>
    let r := clickStep T H acc.1 ev
    (r.1, acc.2 ++ r.2)) (st, [])

/-- Fire every remaining deferred single-click evaluation at its
deadline. -/
def flushEmits (T : Nat) (st : ClickSt) : List ClickEmit :=
  st.pendings.filterMap (evalPending T st)

/-- Full simulation from module load: run the events, then let every
outstanding timer fire. -/
def clickSim (T H : Nat) (evs : List CEvent) : List ClickEmit :=
  let r := clickRun T H clickInit evs
  r.2 ++ flushEmits T r.1

/-- Recognizer: a posted double click with the given geometry. -/
def isDoubleGeom (g : Geom) : ClickEmit → Bool
  | .double _ g2 _ => decide (g2 = g)
  | _ => false

/-- Recognizer: a posted single click with the given geometry. -/
def isSingleGeom (g : Geom) : ClickEmit → Bool
  | .single _ g2 _ => decide (g2 = g)
  | _ => false

/-- Recognizer: any posted single click. -/
def isSingle : ClickEmit → Bool
  | .single _ _ _ => true
  | _ => false

/-- The bookKey an emission is tagged with. -/
def emitBookKey : ClickEmit → String
  | .double bk _ _ => bk
  | .single bk _ _ => bk
  | .footnotePopup bk _ => bk

/-- A click target on plain content: no interactive ancestor and no
footnote container. -/
def plainTarget : ClickTarget :=
  { closestInteractive := false, closestUnhrefFootnote := false,
    closestFootnote := none, targetAlt := none }

/-- Zero modifier flags. -/
def noFlags : KeyFlags :=
  { ctrlKey := false, shiftKey := false, altKey := false, metaKey := false }

/-- Concrete geometry values used by witnesses and counterexamples. -/
def geomA : Geom := ⟨1, 1, 1, 1, 1, 1⟩

/-- A second concrete geometry. -/
def geomB : Geom := ⟨2, 2, 2, 2, 2, 2⟩

/-- A third concrete geometry. -/
def geomC : Geom := ⟨3, 3, 3, 3, 3, 3⟩

end Clicks

/-- A pre-state for the C4 witness: a long-hold timer armed at time 1000
with nulling deadline 1500, no pending evaluations. -/
def c4wSt : Clicks.ClickSt :=
  { Clicks.clickInit with lhArmed := true, lhNulls := [1500] }

namespace LongPress

/-- A DOM node as the tracker sees it: an identity plus the fields the
handlers read. -/
structure LPNode where
  id : Nat
  localName : String
  src : String
  outerHTML : String
  deriving DecidableEq, Repr

/-- An element together with its ancestor chain (nearest first), which is
what the closest calls walk. -/
structure LPElem where
  node : LPNode
  ancestors : List LPNode
  deriving DecidableEq, Repr

/-- closest with the table selector: the element itself if it is a table,
else the nearest table ancestor. -/
def LPElem.closestTable (e : LPElem) : Option LPNode :=
  if e.node.localName = "table" then some e.node
  else e.ancestors.find? (fun n => decide (n.localName = "table"))

/-- The nearest table ancestor, keeping its own ancestor chain. -/
def findTableAnc : List LPNode → Option LPElem
  | [] => none
  | n :: rest => if n.localName = "table" then some ⟨n, rest⟩ else findTableAnc rest

/-- The elementToTrack computation shared by startPress, handleMove and
cancelPress: the target itself for an image or a table, else the nearest
enclosing table; none when the handler returns without tracking. -/
def resolveTrack (target : LPElem) : Option LPElem :=
  if target.node.localName = "img" then some target
  else if target.node.localName = "table" then some target
  else findTableAnc target.ancestors

/-- The payload of a posted iframe-long-press message. -/
inductive LPPayload where
  | image (src : String)
  | table (html : String)
  deriving DecidableEq, Repr

/-- handleLongPress: veto when the document has a non-empty text
selection, else post the image source for an image and the outer markup
of the nearest enclosing table for a table or table descendant. -/
def handleLongPress (selection : String) (target : LPElem) : Option LPPayload :=
  if 0 < selection.length then none
  else if target.node.localName = "img" then some (.image target.node.src)
  else
    match target.closestTable with
    | some tbl => some (.table tbl.outerHTML)
    | none => none

/-- longPressDuration from addLongPressListeners. -/
def longPressDuration : Nat := 500

/-- moveThreshold (pixels) from addLongPressListeners. -/
def moveThreshold : ℚ := 10

/-- The tracker state of one addLongPressListeners call: the elements
carrying the data-long-press-added marker and listeners, whether the
mutation observer is still connected, the armed pressTimers map (element
to deadline; a cleared or fired timer is simply absent, which is
observationally what clearTimeout leaves), the pressStartPositions map,
and the current document selection read at fire time. -/
structure LPState where
  instrumented : List LPElem
  observing : Bool
  timers : List (LPElem × Nat)
  startPositions : List (LPElem × (ℚ × ℚ))
  selection : String
  deriving DecidableEq, Repr

/-- querySelectorAll img plus querySelectorAll table: the elements
processElements instruments. -/
def qualifies (e : LPElem) : Bool :=
  decide (e.node.localName = "img") || decide (e.node.localName = "table")

/-- The state right after addLongPressListeners runs on a document with
the given elements: processElements has instrumented the qualifying ones
and the observer is connected. -/
def lpInit (docElems : List LPElem) : LPState :=
  { instrumented := docElems.filter qualifies, observing := true,
    timers := [], startPositions := [], selection := "" }

/-- Map.set on an association list keyed by element identity. -/
def setEntry {α : Type} (k : LPElem) (v : α) (m : List (LPElem × α)) : List (LPElem × α) :=
  m.filter (fun q => decide (q.1 ≠ k)) ++ [(k, v)]

/-- Map.delete on an association list keyed by element identity. -/
def delEntry {α : Type} (k : LPElem) (m : List (LPElem × α)) : List (LPElem × α) :=
  m.filter (fun q => decide (q.1 ≠ k))

/-- Map.get on an association list keyed by element identity. -/
def getEntry {α : Type} (k : LPElem) (m : List (LPElem × α)) : Option α :=
  (m.find? (fun q => decide (q.1 = k))).map (fun q => q.2)

/-- The external events delivered to one tracker, timestamped: press
(mousedown or touchstart, with the pointer position when the event
carries one), move, up (mouseup, mouseleave or touchend), a change of the
document selection, a childList mutation adding elements, and the
teardown closure being invoked. -/
inductive LPEvent where
  | press (target : LPElem) (pos : Option (ℚ × ℚ)) (time : Nat)
  | move (target : LPElem) (pos : Option (ℚ × ℚ)) (time : Nat)
  | up (target : LPElem) (time : Nat)
  | setSelection (s : String) (time : Nat)
  | mutation (added : List LPElem) (time : Nat)
  | teardown (time : Nat)
  deriving DecidableEq, Repr

/-- Timestamp of a tracker event. -/
def LPEvent.time : LPEvent → Nat
  | .press _ _ t => t
  | .move _ _ t => t
  | .up _ t => t
  | .setSelection _ t => t
  | .mutation _ t => t
  | .teardown t => t

/-- Fire every armed timer due at or before t: each runs handleLongPress
on its captured element with the current selection; fired timers leave
the armed set.  Emissions are tagged with the firing element. -/
def fireDue (t : Nat) (st : LPState) : LPState × List (LPElem × LPPayload) :=
  ({ st with timers := st.timers.filter (fun q => decide (t < q.2)) },
   (st.timers.filter (fun q => decide (q.2 ≤ t))).filterMap
     (fun q => (handleLongPress st.selection q.1).map (fun pay => (q.1, pay))))

/-- The handler each event runs, transcribed from addLongPressListeners.
A press or move on a target whose resolved track element is not
instrumented has no listener to run and is a no-op.  The squared-distance
comparison is the squaring of the nonnegative source comparison
Math.sqrt(dx^2 + dy^2) > moveThreshold. -/
def lpHandle (st : LPState) : LPEvent → LPState
  | .press tg pos t =>
      match resolveTrack tg with
      | none => st
      | some el =>
        if el ∈ st.instrumented then
          let st1 :=
            match pos with
            | some p => { st with startPositions := setEntry el p st.startPositions }
            | none => st
          { st1 with timers := setEntry el (t + longPressDuration) st1.timers }
        else st
  | .move tg pos _ =>
      match resolveTrack tg with
      | none => st
      | some el =>
        if el ∈ st.instrumented then
          match getEntry el st.startPositions with
          | none => st
          | some sp =>
            let c := pos.getD (0, 0)
            if moveThreshold ^ 2 < (c.1 - sp.1) ^ 2 + (c.2 - sp.2) ^ 2 then
              { st with timers := delEntry el st.timers,
                        startPositions := delEntry el st.startPositions }
            else st
        else st
  | .up tg _ =>
      match resolveTrack tg with
      | none => st
      | some el =>
        if el ∈ st.instrumented then
          { st with timers := delEntry el st.timers,
                    startPositions := delEntry el st.startPositions }
        else st
  | .setSelection s _ => { st with selection := s }
  | .mutation added _ =>
      if st.observing then
        { st with instrumented := st.instrumented ++
            added.filter (fun e => qualifies e && !(decide (e ∈ st.instrumented))) }
      else st
  | .teardown _ => { st with observing := false, timers := [] }

/-- Process one event: run the due timers first, then the handler. -/
def lpStep (st : LPState) (ev : LPEvent) : LPState × List (LPElem × LPPayload) :=
  let fired := fireDue ev.time st
  (lpHandle fired.1 ev, fired.2)

/-- Process a chronological event list, accumulating emissions. -/
def lpRun (st : LPState) (evs : List LPEvent) : LPState × List (LPElem × LPPayload) :=
  evs.foldl (fun acc ev =>
    let r := lpStep acc.1 ev
    (r.1, acc.2 ++ r.2)) (st, [])

/-- Let every remaining armed timer elapse. -/
def lpFlush (st : LPState) : List (LPElem × LPPayload) :=
  st.timers.filterMap
    (fun q => (handleLongPress st.selection q.1).map (fun pay => (q.1, pay)))

/-- Full simulation of one tracker: attach, run the events, then let
every outstanding timer fire. -/
def lpSim (docElems : List LPElem) (evs : List LPEvent) : List (LPElem × LPPayload) :=
  let r := lpRun (lpInit docElems) evs
  r.2 ++ lpFlush r.1

/-- A concrete image element used by witnesses and counterexamples. -/
def imgElem : LPElem := ⟨⟨0, "img", "pic", "<img/>"⟩, []⟩

/-- Whether an event is a press whose resolved track element is the given
one (the only event kind that can arm a timer for it). -/
def LPEvent.pressResolvesTo (el : LPElem) : LPEvent → Prop
  | .press tg _ _ => resolveTrack tg = some el
  | _ => False

end LongPress

/-- A tracker state with an armed timer, used by the C6 witness: the
image was pressed at time 1 and its timer is armed for time 501. -/
def c6wSt : LongPress.LPState :=
  (LongPress.lpRun (LongPress.lpInit [LongPress.imgElem])
    [.press LongPress.imgElem (some (0, 0)) 1]).1

/-- A tracker state with an armed timer and selected text, used by the C8
witness. -/
def c8wSt : LongPress.LPState :=
  { instrumented := [LongPress.imgElem], observing := true,
    timers := [(LongPress.imgElem, 5)], startPositions := [], selection := "x" }

/-- A td inside a table, used by the C8 witness. -/
def tdElem : LongPress.LPElem :=
  ⟨⟨1, "td", "", ""⟩, [⟨2, "table", "", "<table/>"⟩]⟩

namespace ImageViewer

/-- The step of every operation preserves the scale/translation invariant. -/
theorem vInv_step (hyp : ℚ → ℚ → ℚ) (s : VState) (op : VOp) (h : VInv s) :
    VInv (vStep hyp s op) := by
  obtain ⟨h1, h2, h3⟩ := h
  have hms : MIN_SCALE ≤ MAX_SCALE := by norm_num [MIN_SCALE, MAX_SCALE]
  have hm1 : MIN_SCALE ≤ 1 := by norm_num [MIN_SCALE]
  have h1m : (1:ℚ) ≤ MAX_SCALE := by norm_num [MAX_SCALE]
  have hzs : (0:ℚ) < ZOOM_SPEED := by norm_num [ZOOM_SPEED]
  cases op with
  | zoomIn =>
      refine ⟨le_min (by linarith) hms, min_le_right _ _, fun hle => ?_⟩
      have hs : s.scale ≤ min (s.scale + ZOOM_SPEED) MAX_SCALE := le_min (by linarith) h2
      exact h3 (le_trans hs hle)
  | zoomOut =>
      dsimp only [vStep]
      split
      next hc => exact ⟨le_max_right _ _, max_le (by linarith) hms, fun _ => ⟨rfl, rfl⟩⟩
      next hc => exact ⟨le_max_right _ _, max_le (by linarith) hms, fun hle => absurd hle hc⟩
  | resetZoom =>
      exact ⟨hm1, h1m, fun _ => ⟨rfl, rfl⟩⟩
  | reset =>
      exact ⟨hm1, h1m, fun _ => ⟨rfl, rfl⟩⟩
  | wheel ctrlOrCmd deltaY clientX clientY rect =>
      dsimp only [vStep]
      repeat' split
      all_goals
        first
          | exact ⟨h1, h2, h3⟩
          | exact ⟨le_min (le_max_right _ _) hms, min_le_right _ _, fun _ => ⟨rfl, rfl⟩⟩
          | exact ⟨le_min (le_max_right _ _) hms, min_le_right _ _,
              fun hx => absurd hx (by assumption)⟩
  | imageMouseDown clientX clientY =>
      dsimp only [vStep]
      split <;> exact ⟨h1, h2, h3⟩
  | imageMouseMove clientX clientY =>
      dsimp only [vStep]
      split
      next hc => exact ⟨h1, h2, h3⟩
      next hc =>
        refine ⟨h1, h2, fun hle => ?_⟩
        simp only [Bool.or_eq_true, Bool.not_eq_true', decide_eq_true_eq, not_or] at hc
        exact absurd hle hc.2
  | imageMouseUp =>
      exact ⟨h1, h2, h3⟩
  | touchStart touches =>
      dsimp only [vStep]
      repeat' split
      all_goals exact ⟨h1, h2, h3⟩
  | touchMove touches rect =>
      dsimp only [vStep]
      split
      next hcnd =>
        split
        next => exact ⟨h1, h2, h3⟩
        next t => exact ⟨h1, h2, fun hle => absurd hle (not_le.mpr hcnd.2.1)⟩
      next =>
        split
        next =>
          repeat' split
          all_goals
            first
              | exact ⟨h1, h2, h3⟩
              | exact ⟨le_min (le_max_right _ _) hms, min_le_right _ _, fun _ => ⟨rfl, rfl⟩⟩
              | exact ⟨le_min (le_max_right _ _) hms, min_le_right _ _,
                  fun hx => absurd hx (by assumption)⟩
        next => exact ⟨h1, h2, h3⟩
  | touchEnd touches =>
      dsimp only [vStep]
      repeat' split
      all_goals exact ⟨h1, h2, h3⟩
  | doubleClick clientX clientY rect =>
      dsimp only [vStep]
      repeat' split
      all_goals
        first
          | exact ⟨h1, h2, h3⟩
          | exact ⟨hm1, h1m, fun _ => ⟨rfl, rfl⟩⟩
          | exact ⟨by norm_num [MIN_SCALE], by norm_num [MAX_SCALE],
              fun hx => by norm_num at hx⟩

/-- The invariant holds along every run from an invariant state. -/
theorem vInv_run (hyp : ℚ → ℚ → ℚ) (s : VState) (ops : List VOp) (h : VInv s) :
    VInv (vRun hyp s ops) := by
  induction ops generalizing s with
  | nil => exact h
  | cons op rest ih => exact ih _ (vInv_step hyp s op h)

/-- The initial state satisfies the invariant. -/
theorem vInv_init : VInv vInit :=
  ⟨by norm_num [vInit, MIN_SCALE], by norm_num [vInit, MAX_SCALE],
   fun _ => ⟨rfl, rfl⟩⟩

end ImageViewer

/-- C3: for every sequence of viewer operations (zoom in and out, reset,
wheel zoom, pinch, drag, double-click zoom) starting from the initial
state with scale 1 and position (0, 0), the resulting scale lies in
[MIN_SCALE, MAX_SCALE], and whenever the scale is at most 1 the
translation is (0, 0).  Quantifying over the operation list covers every
reachable state, and the result holds for every model of Math.hypot. -/
theorem c3_scale_clamped_and_origin_below_one
    (hyp : ℚ → ℚ → ℚ) (ops : List ImageViewer.VOp) :
    ImageViewer.VInv (ImageViewer.vRun hyp ImageViewer.vInit ops) :=
  ImageViewer.vInv_run hyp ImageViewer.vInit ops ImageViewer.vInv_init

/-- C2: getZoomedOffset is exactly the translation update
tx2 = ax - (ax - tx) * (s2 / s) (and likewise in y), and applying it for
the scale change s to s2 and then for s2 back to s at the same anchor
returns the original translation exactly (the rational model of the
floating-point computation), for all nonzero scales. -/
theorem c2_zoomed_offset_formula_and_roundtrip
    (ax ay s s2 tx ty : ℚ) (hs : s ≠ 0) (hs2 : s2 ≠ 0) :
    ImageViewer.getZoomedOffset ax ay s s2 (tx, ty) =
      (ax - (ax - tx) * (s2 / s), ay - (ay - ty) * (s2 / s)) ∧
    ImageViewer.getZoomedOffset ax ay s2 s
      (ImageViewer.getZoomedOffset ax ay s s2 (tx, ty)) = (tx, ty) := by
  refine ⟨rfl, ?_⟩
  simp only [ImageViewer.getZoomedOffset, Prod.mk.injEq]
  constructor <;> field_simp

/-- Witness for C2 at the anchor (5, 7), scales 2 and 3, translation
(11, 13). -/
theorem c2_zoomed_offset_formula_and_roundtrip_witness :
    ImageViewer.getZoomedOffset 5 7 2 3 ((11 : ℚ), (13 : ℚ)) =
      (5 - (5 - 11) * (3 / 2), 7 - (7 - 13) * (3 / 2)) ∧
    ImageViewer.getZoomedOffset 5 7 3 2
      (ImageViewer.getZoomedOffset 5 7 2 3 ((11 : ℚ), (13 : ℚ))) = (11, 13) :=
  c2_zoomed_offset_formula_and_roundtrip 5 7 2 3 11 13 (by norm_num) (by norm_num)

/-- C10: when a touch sequence drops to exactly one remaining touch
point, onTouchEnd re-bases the drag origin to that touch point minus the
current translation (position, scale and isDragging unchanged), so a
subsequent one-finger pan moves the position by exactly the finger delta
(no jump: panning at the same point leaves the position unchanged); and
among the touch handlers isDragging becomes false only on a touch end
with zero remaining touches. -/
theorem c10_touch_end_rebase_and_drag_lifecycle
    (hyp : ℚ → ℚ → ℚ) (s : ImageViewer.VState) (t t2 : ImageViewer.Touch)
    (rect : Option ImageViewer.Rect)
    (hd : s.isDragging = true) (hs : 1 < s.scale) :
    (ImageViewer.vStep hyp s (.touchEnd [t])).isDragging = true ∧
    (ImageViewer.vStep hyp s (.touchEnd [t])).dragStartX = t.1 - s.posX ∧
    (ImageViewer.vStep hyp s (.touchEnd [t])).dragStartY = t.2 - s.posY ∧
    (ImageViewer.vStep hyp s (.touchEnd [t])).posX = s.posX ∧
    (ImageViewer.vStep hyp s (.touchEnd [t])).posY = s.posY ∧
    (ImageViewer.vStep hyp s (.touchEnd [t])).scale = s.scale ∧
    (ImageViewer.vStep hyp (ImageViewer.vStep hyp s (.touchEnd [t]))
        (.touchMove [t2] rect)).posX = s.posX + (t2.1 - t.1) ∧
    (ImageViewer.vStep hyp (ImageViewer.vStep hyp s (.touchEnd [t]))
        (.touchMove [t2] rect)).posY = s.posY + (t2.2 - t.2) ∧
    (ImageViewer.vStep hyp s (.touchEnd [])).isDragging = false ∧
    (∀ ts : List ImageViewer.Touch, ts ≠ [] →
      (ImageViewer.vStep hyp s (.touchEnd ts)).isDragging = true) ∧
    (∀ ts : List ImageViewer.Touch,
      (ImageViewer.vStep hyp s (.touchStart ts)).isDragging = true) ∧
    (∀ (ts : List ImageViewer.Touch) (r : Option ImageViewer.Rect),
      (ImageViewer.vStep hyp s (.touchMove ts r)).isDragging = true) := by
  have e1 : ImageViewer.vStep hyp s (.touchEnd [t]) =
      { s with dragStartX := t.1 - s.posX, dragStartY := t.2 - s.posY } := rfl
  refine ⟨by rw [e1]; exact hd, by rw [e1], by rw [e1], by rw [e1], by rw [e1],
    by rw [e1], ?_, ?_, rfl, ?_, ?_, ?_⟩
  · rw [e1]
    dsimp only [ImageViewer.vStep]
    rw [if_pos ⟨rfl, hs, hd⟩]
    dsimp only [List.head?]
    ring
  · rw [e1]
    dsimp only [ImageViewer.vStep]
    rw [if_pos ⟨rfl, hs, hd⟩]
    dsimp only [List.head?]
    ring
  · intro ts hts
    cases ts with
    | nil => exact absurd rfl hts
    | cons a l =>
        dsimp only [ImageViewer.vStep]
        rw [if_neg (by simp)]
        split
        · exact hd
        · exact hd
  · intro ts
    dsimp only [ImageViewer.vStep]
    repeat' split
    all_goals first | rfl | exact hd
  · intro ts r
    dsimp only [ImageViewer.vStep]
    repeat' split
    all_goals first | rfl | exact hd

/-- Witness for C10: the rebase after dropping to the touch point (10, 20)
and the follow-up pan to (11, 22). -/
theorem c10_touch_end_rebase_and_drag_lifecycle_witness :
    (ImageViewer.vStep c10hyp c10state (.touchEnd [((10:ℚ), (20:ℚ))])).isDragging = true ∧
    (ImageViewer.vStep c10hyp c10state (.touchEnd [((10:ℚ), (20:ℚ))])).dragStartX
      = (10:ℚ) - c10state.posX ∧
    (ImageViewer.vStep c10hyp c10state (.touchEnd [((10:ℚ), (20:ℚ))])).dragStartY
      = (20:ℚ) - c10state.posY ∧
    (ImageViewer.vStep c10hyp c10state (.touchEnd [((10:ℚ), (20:ℚ))])).posX = c10state.posX ∧
    (ImageViewer.vStep c10hyp c10state (.touchEnd [((10:ℚ), (20:ℚ))])).posY = c10state.posY ∧
    (ImageViewer.vStep c10hyp c10state (.touchEnd [((10:ℚ), (20:ℚ))])).scale = c10state.scale ∧
    (ImageViewer.vStep c10hyp (ImageViewer.vStep c10hyp c10state (.touchEnd [((10:ℚ), (20:ℚ))]))
        (.touchMove [((11:ℚ), (22:ℚ))] none)).posX = c10state.posX + ((11:ℚ) - 10) ∧
    (ImageViewer.vStep c10hyp (ImageViewer.vStep c10hyp c10state (.touchEnd [((10:ℚ), (20:ℚ))]))
        (.touchMove [((11:ℚ), (22:ℚ))] none)).posY = c10state.posY + ((22:ℚ) - 20) ∧
    (ImageViewer.vStep c10hyp c10state (.touchEnd [])).isDragging = false ∧
    (∀ ts : List ImageViewer.Touch, ts ≠ [] →
      (ImageViewer.vStep c10hyp c10state (.touchEnd ts)).isDragging = true) ∧
    (∀ ts : List ImageViewer.Touch,
      (ImageViewer.vStep c10hyp c10state (.touchStart ts)).isDragging = true) ∧
    (∀ (ts : List ImageViewer.Touch) (r : Option ImageViewer.Rect),
      (ImageViewer.vStep c10hyp c10state (.touchMove ts r)).isDragging = true) :=
  c10_touch_end_rebase_and_drag_lifecycle c10hyp c10state (10, 20) (11, 22) none rfl
    (by norm_num [c10state, ImageViewer.vInit])

namespace Clicks

/-- Any event postSingleClick posts is either the footnote popup or the
single click with the geometry and merged key status of its click. -/
theorem postSingleClick_shape {longHoldActive : Bool} {ks : KeyState} {bk : String}
    {tgt : ClickTarget} {geom : Geom} {flags : KeyFlags} {e : ClickEmit}
    (h : postSingleClick longHoldActive ks bk tgt geom flags = some e) :
    (∃ txt, e = .footnotePopup bk txt) ∨
      (longHoldActive = true ∧ e = .single bk geom (getKeyStatus ks (some flags))) := by
  unfold postSingleClick at h
  split at h
  · exact absurd h (by simp)
  · split at h
    next fn heq => exact Or.inl ⟨footnoteText tgt fn, (Option.some.inj h).symm⟩
    next =>
      split at h
      next harm => exact absurd h (by simp)
      next harm =>
        refine Or.inr ⟨by revert harm; cases longHoldActive <;> simp, (Option.some.inj h).symm⟩

/-- Any event a deferred evaluation posts is a footnote popup or the
single click of its pending record. -/
theorem evalPending_shape {T : Nat} {st : ClickSt} {p : PendingSingle} {e : ClickEmit}
    (h : evalPending T st p = some e) :
    (∃ txt, e = .footnotePopup p.bookKey txt) ∨
      e = .single p.bookKey p.geom (getKeyStatus st.keyState (some p.flags)) := by
  unfold evalPending at h
  split at h
  · rcases postSingleClick_shape h with hfp | ⟨_, hs⟩
    · exact Or.inl hfp
    · exact Or.inr hs
  · exact absurd h (by simp)

/-- A deferred evaluation whose deadline is within T after the current
lastClickTime posts nothing (a further click arrived in the window). -/
theorem evalPending_none_of_late {T : Nat} (hT : 0 < T) {st : ClickSt}
    {p : PendingSingle} (h : p.fireAt < st.lastClickTime + T) :
    evalPending T st p = none := by
  unfold evalPending
  rw [if_neg]
  omega

/-- Timer callbacks post no single click with geometry g when every due
pending with geometry g evaluates to nothing. -/
theorem runTimers_single_zero (T cut : Nat) (st : ClickSt) (g : Geom)
    (hp : ∀ p ∈ st.pendings, p.fireAt ≤ cut → p.geom = g → evalPending T st p = none) :
    (runTimers T cut st).2.countP (isSingleGeom g) = 0 := by
  rw [List.countP_eq_zero]
  intro e he
  rcases List.mem_filterMap.mp he with ⟨p, hpf, hev⟩
  obtain ⟨hpm, hdue⟩ := List.mem_filter.mp hpf
  rcases evalPending_shape hev with ⟨txt, rfl⟩ | rfl
  · simp [isSingleGeom]
  · simp only [isSingleGeom, decide_eq_true_eq]
    intro hg
    have := hp p hpm (by simpa using hdue) hg
    rw [this] at hev
    exact Option.noConfusion hev

/-- Timer callbacks never post a double click. -/
theorem runTimers_double_zero (T cut : Nat) (st : ClickSt) (g : Geom) :
    (runTimers T cut st).2.countP (isDoubleGeom g) = 0 := by
  rw [List.countP_eq_zero]
  intro e he
  rcases List.mem_filterMap.mp he with ⟨p, _, hev⟩
  rcases evalPending_shape hev with ⟨txt, rfl⟩ | rfl <;> simp [isDoubleGeom]

/-- The final flush posts no single click with geometry g when every
pending with geometry g evaluates to nothing. -/
theorem flushEmits_single_zero (T : Nat) (st : ClickSt) (g : Geom)
    (hp : ∀ p ∈ st.pendings, p.geom = g → evalPending T st p = none) :
    (flushEmits T st).countP (isSingleGeom g) = 0 := by
  rw [List.countP_eq_zero]
  intro e he
  rcases List.mem_filterMap.mp he with ⟨p, hpm, hev⟩
  rcases evalPending_shape hev with ⟨txt, rfl⟩ | rfl
  · simp [isSingleGeom]
  · simp only [isSingleGeom, decide_eq_true_eq]
    intro hg
    have := hp p hpm hg
    rw [this] at hev
    exact Option.noConfusion hev

/-- The final flush never posts a double click. -/
theorem flushEmits_double_zero (T : Nat) (st : ClickSt) (g : Geom) :
    (flushEmits T st).countP (isDoubleGeom g) = 0 := by
  rw [List.countP_eq_zero]
  intro e he
  rcases List.mem_filterMap.mp he with ⟨p, _, hev⟩
  rcases evalPending_shape hev with ⟨txt, rfl⟩ | rfl <;> simp [isDoubleGeom]

/-- With the long-hold timer inactive, postSingleClick never posts a
single click. -/
theorem postSingleClick_false_not_single {ks : KeyState} {bk : String}
    {tgt : ClickTarget} {geom : Geom} {flags : KeyFlags} {e : ClickEmit}
    (h : postSingleClick false ks bk tgt geom flags = some e) :
    isSingle e = false := by
  rcases postSingleClick_shape h with ⟨txt, rfl⟩ | ⟨hcontra, _⟩
  · rfl
  · exact absurd hcontra (by simp)

/-- With longHoldTimeout null, timer callbacks post no single click. -/
theorem runTimers_unarmed_no_single (T cut : Nat) (st : ClickSt)
    (ha : st.lhArmed = false) :
    ∀ e ∈ (runTimers T cut st).2, isSingle e = false := by
  intro e he
  rcases List.mem_filterMap.mp he with ⟨p, _, hev⟩
  unfold evalPending at hev
  split at hev
  · have harm : armedAt st p.fireAt = false := by simp [armedAt, ha]
    rw [harm] at hev
    exact postSingleClick_false_not_single hev
  · exact absurd hev (by simp)

/-- With longHoldTimeout null, the final flush posts no single click. -/
theorem flushEmits_unarmed_no_single (T : Nat) (st : ClickSt)
    (ha : st.lhArmed = false) :
    ∀ e ∈ flushEmits T st, isSingle e = false := by
  intro e he
  rcases List.mem_filterMap.mp he with ⟨p, _, hev⟩
  unfold evalPending at hev
  split at hev
  · have harm : armedAt st p.fireAt = false := by simp [armedAt, ha]
    rw [harm] at hev
    exact postSingleClick_false_not_single hev
  · exact absurd hev (by simp)

/-- clickRun with a nonempty accumulator prepends it to the emissions. -/
theorem clickRun_acc (T H : Nat) (evs : List CEvent) (st : ClickSt) (es : List ClickEmit) :
    evs.foldl (fun acc ev =>
      let r := clickStep T H acc.1 ev
      (r.1, acc.2 ++ r.2)) (st, es) =
      ((clickRun T H st evs).1, es ++ (clickRun T H st evs).2) := by
  induction evs generalizing st es with
  | nil => simp [clickRun]
  | cons ev rest ih =>
      simp only [clickRun, List.foldl_cons]
      rw [ih, ih]
      simp

/-- Unfolding one event of clickRun. -/
theorem clickRun_cons (T H : Nat) (st : ClickSt) (ev : CEvent) (evs : List CEvent) :
    clickRun T H st (ev :: evs) =
      ((clickRun T H (clickStep T H st ev).1 evs).1,
       (clickStep T H st ev).2 ++ (clickRun T H (clickStep T H st ev).1 evs).2) := by
  simp only [clickRun, List.foldl_cons]
  rw [clickRun_acc]
  simp [clickRun]

/-- A step on a non-mousedown event keeps longHoldTimeout null and posts
no single click. -/
theorem clickStep_unarmed (T H : Nat) (st : ClickSt) (ev : CEvent)
    (ha : st.lhArmed = false) (hm : ∀ bk t, ev ≠ CEvent.mousedown bk t) :
    (clickStep T H st ev).1.lhArmed = false ∧
      ∀ e ∈ (clickStep T H st ev).2, isSingle e = false := by
  have hf : ∀ t, (runTimers T t st).1.lhArmed = false := by
    intro t; simp [runTimers, ha]
  have hfe : ∀ t, ∀ e ∈ (runTimers T t st).2, isSingle e = false := fun t =>
    runTimers_unarmed_no_single T t st ha
  cases ev with
  | keydown k c f t => exact ⟨hf t, hfe t⟩
  | keyup k c f t => exact ⟨hf t, hfe t⟩
  | mousedown bk t => exact absurd rfl (hm bk t)
  | click bk dis tgt g f t =>
      simp only [clickStep, CEvent.time]
      split
      next hdbl =>
        refine ⟨hf t, ?_⟩
        intro e he
        rcases List.mem_append.mp he with h1 | h1
        · exact hfe t e h1
        · rcases List.mem_singleton.mp h1 with rfl
          rfl
      next hdbl =>
        split
        next hnd => exact ⟨hf t, hfe t⟩
        next hnd =>
          refine ⟨hf t, ?_⟩
          intro e he
          rcases List.mem_append.mp he with h1 | h1
          · exact hfe t e h1
          · have hsome : postSingleClick (runTimers T t st).1.lhArmed
                (runTimers T t st).1.keyState bk tgt g f = some e := by
              simpa using h1
            rw [hf t] at hsome
            exact postSingleClick_false_not_single hsome

/-- A run containing no mousedown keeps longHoldTimeout null throughout
and posts no single click, timers and flush included. -/
theorem no_mousedown_no_single (T H : Nat) (st : ClickSt) (evs : List CEvent)
    (ha : st.lhArmed = false)
    (hm : ∀ ev ∈ evs, ∀ bk t, ev ≠ CEvent.mousedown bk t) :
    (clickRun T H st evs).1.lhArmed = false ∧
      ∀ e ∈ (clickRun T H st evs).2 ++ flushEmits T (clickRun T H st evs).1,
        isSingle e = false := by
  induction evs generalizing st with
  | nil =>
      refine ⟨ha, ?_⟩
      intro e he
      simp only [clickRun, List.foldl_nil, List.nil_append] at he
      exact flushEmits_unarmed_no_single T st ha e he
  | cons ev rest ih =>
      rw [clickRun_cons]
      obtain ⟨ha2, hes⟩ := clickStep_unarmed T H st ev ha (hm ev (by simp))
      obtain ⟨ha3, hrest⟩ :=
        ih (clickStep T H st ev).1 ha2 (fun e2 he2 => hm e2 (by simp [he2]))
      refine ⟨ha3, ?_⟩
      intro e he
      rcases List.mem_append.mp he with h1 | h1
      · rcases List.mem_append.mp h1 with h2 | h2
        · exact hes e h2
        · exact hrest e (List.mem_append_left _ h2)
      · exact hrest e (List.mem_append_right _ h1)

end Clicks

/-- C9: a click that survives the target-exclusion and footnote checks is
posted as a single click exactly when the long-hold timer is armed at the
moment the deferred evaluation runs; with no armed long-hold timer it is
silently vetoed (postSingleClick posts nothing), and in particular a run
containing no mousedown at all — so no long-hold timer was ever armed —
posts no single click whatsoever. -/
theorem c9_long_hold_gates_single_click
    (longHoldActive : Bool) (ks : Clicks.KeyState) (bk : String)
    (tgt : Clicks.ClickTarget) (geom : Clicks.Geom) (flags : Clicks.KeyFlags)
    (hsurv : ¬(tgt.closestInteractive = true ∧ tgt.closestUnhrefFootnote = false))
    (hfn : tgt.closestFootnote = none) :
    Clicks.postSingleClick longHoldActive ks bk tgt geom flags =
      (if longHoldActive then
        some (.single bk geom (Clicks.getKeyStatus ks (some flags))) else none) ∧
    (∀ (T H : Nat) (evs : List Clicks.CEvent),
      (∀ ev ∈ evs, ∀ bk2 t, ev ≠ .mousedown bk2 t) →
      ∀ e ∈ Clicks.clickSim T H evs, Clicks.isSingle e = false) := by
  constructor
  · unfold Clicks.postSingleClick
    rw [if_neg (by simpa using hsurv), hfn]
    cases longHoldActive <;> rfl
  · intro T H evs hm e he
    have h := Clicks.no_mousedown_no_single T H Clicks.clickInit evs rfl hm
    exact h.2 e (by simpa [Clicks.clickSim] using he)

/-- Witness for C9: a surviving plain-target click is posted when the
long-hold timer is armed, and the one-click no-mousedown run posts no
single click. -/
theorem c9_long_hold_gates_single_click_witness :
    Clicks.postSingleClick true Clicks.clickInit.keyState "bk" Clicks.plainTarget
        Clicks.geomA Clicks.noFlags =
      (if (true : Bool) then
        some (.single "bk" Clicks.geomA
          (Clicks.getKeyStatus Clicks.clickInit.keyState (some Clicks.noFlags))) else none) ∧
    (∀ e ∈ Clicks.clickSim 300 500
        [.click "bk" false Clicks.plainTarget Clicks.geomA Clicks.noFlags 1000],
      Clicks.isSingle e = false) :=
  ⟨(c9_long_hold_gates_single_click true Clicks.clickInit.keyState "bk" Clicks.plainTarget
      Clicks.geomA Clicks.noFlags (by decide) rfl).1,
   fun e he =>
     (c9_long_hold_gates_single_click true Clicks.clickInit.keyState "bk" Clicks.plainTarget
       Clicks.geomA Clicks.noFlags (by decide) rfl).2 300 500 _ (by simp) e he⟩

/-- C4 counterexample: a single enabled click on a plain target at time
1000 (gap from the previous click 1000 >= threshold 300), with no further
click and no preceding mousedown, posts nothing at all — the deferred
evaluation is vetoed because no long-hold timer is armed, where the claim
says a single-click event fires after the threshold. -/
theorem c4_counterexample_no_long_hold :
    Clicks.clickSim 300 500
      [.click "bk" false Clicks.plainTarget Clicks.geomA Clicks.noFlags 1000] = [] := by
  rfl

/-- C4 amended: for a click with gap at least T from the previous click
(disambiguation enabled, surviving target), the deferred evaluation is
scheduled at exactly click time plus T; if no further click arrives it
posts the single click precisely when the long-hold timer is armed at
that deadline (and nothing otherwise); and a further click strictly after
the first within the threshold posts a double click immediately while the
deferred evaluation then posts nothing. -/
theorem c4_amended_deferred_single_click
    (T H : Nat) (st : Clicks.ClickSt) (t : Nat) (bk : String)
    (tgt : Clicks.ClickTarget) (geom : Clicks.Geom) (flags : Clicks.KeyFlags)
    (hp : st.pendings = [])
    (hgap : T ≤ t - st.lastClickTime)
    (hsurv : ¬(tgt.closestInteractive = true ∧ tgt.closestUnhrefFootnote = false))
    (hfn : tgt.closestFootnote = none) :
    (Clicks.clickStep T H st (.click bk false tgt geom flags t)).2 = [] ∧
    (Clicks.clickStep T H st (.click bk false tgt geom flags t)).1.pendings =
      [{ fireAt := t + T, bookKey := bk, tgt := tgt, geom := geom, flags := flags }] ∧
    (Clicks.armedAt (Clicks.clickStep T H st (.click bk false tgt geom flags t)).1
        (t + T) = true →
      Clicks.flushEmits T (Clicks.clickStep T H st (.click bk false tgt geom flags t)).1 =
        [.single bk geom (Clicks.getKeyStatus st.keyState (some flags))]) ∧
    (Clicks.armedAt (Clicks.clickStep T H st (.click bk false tgt geom flags t)).1
        (t + T) = false →
      Clicks.flushEmits T (Clicks.clickStep T H st (.click bk false tgt geom flags t)).1
        = []) ∧
    (∀ (bk2 : String) (tgt2 : Clicks.ClickTarget) (geom2 : Clicks.Geom)
        (flags2 : Clicks.KeyFlags) (t2 : Nat), t < t2 → t2 - t < T →
      (Clicks.clickStep T H
          (Clicks.clickStep T H st (.click bk false tgt geom flags t)).1
          (.click bk2 false tgt2 geom2 flags2 t2)).2 =
        [.double bk2 geom2 (Clicks.getKeyStatus st.keyState (some flags2))] ∧
      Clicks.flushEmits T
        (Clicks.clickStep T H
          (Clicks.clickStep T H st (.click bk false tgt geom flags t)).1
          (.click bk2 false tgt2 geom2 flags2 t2)).1 = []) := by
  have hng : ¬(t - st.lastClickTime < T) := by omega
  have hstep : Clicks.clickStep T H st (.click bk false tgt geom flags t) =
      ({ st with lhArmed := st.lhArmed && st.lhNulls.all (fun n => decide (t < n)),
                 lhNulls := st.lhNulls.filter (fun n => decide (t < n)),
                 lastClickTime := t,
                 pendings := [{ fireAt := t + T, bookKey := bk, tgt := tgt,
                                geom := geom, flags := flags }] }, []) := by
    simp [Clicks.clickStep, Clicks.runTimers, Clicks.CEvent.time, hp, hng]
  rw [hstep]
  have hfire : t + T - t = T := by omega
  refine ⟨rfl, rfl, ?_, ?_, ?_⟩
  · intro harm
    simp only [Clicks.flushEmits, List.filterMap, Clicks.evalPending, hfire] at harm ⊢
    rw [if_pos le_rfl, harm]
    unfold Clicks.postSingleClick
    rw [if_neg (by simpa using hsurv), hfn]
    rfl
  · intro harm
    simp only [Clicks.flushEmits, List.filterMap, Clicks.evalPending, hfire] at harm ⊢
    rw [if_pos le_rfl, harm]
    unfold Clicks.postSingleClick
    rw [if_neg (by simpa using hsurv), hfn]
    rfl
  · intro bk2 tgt2 geom2 flags2 t2 h2 hlt
    have hkeep : t2 < t + T := by omega
    have hnotdue : ¬(t + T ≤ t2) := by omega
    have hlate : ¬(T ≤ t + T - t2) := by omega
    constructor
    · simp [Clicks.clickStep, Clicks.runTimers, Clicks.CEvent.time, hlt, hnotdue]
    · simp [Clicks.clickStep, Clicks.runTimers, Clicks.CEvent.time, Clicks.flushEmits,
        Clicks.evalPending, hlt, hnotdue, hkeep, hlate]

/-- Witness for C4 amended at threshold 300, long-hold threshold 500, a
plain-target click at time 1000 on the armed pre-state. -/
theorem c4_amended_deferred_single_click_witness :
    (Clicks.clickStep 300 500 c4wSt
        (.click "bk" false Clicks.plainTarget Clicks.geomA Clicks.noFlags 1000)).2 = [] ∧
    (Clicks.clickStep 300 500 c4wSt
        (.click "bk" false Clicks.plainTarget Clicks.geomA Clicks.noFlags 1000)).1.pendings =
      [{ fireAt := 1000 + 300, bookKey := "bk", tgt := Clicks.plainTarget,
         geom := Clicks.geomA, flags := Clicks.noFlags }] ∧
    (Clicks.armedAt (Clicks.clickStep 300 500 c4wSt
        (.click "bk" false Clicks.plainTarget Clicks.geomA Clicks.noFlags 1000)).1
        (1000 + 300) = true →
      Clicks.flushEmits 300 (Clicks.clickStep 300 500 c4wSt
        (.click "bk" false Clicks.plainTarget Clicks.geomA Clicks.noFlags 1000)).1 =
        [.single "bk" Clicks.geomA
          (Clicks.getKeyStatus c4wSt.keyState (some Clicks.noFlags))]) ∧
    (Clicks.armedAt (Clicks.clickStep 300 500 c4wSt
        (.click "bk" false Clicks.plainTarget Clicks.geomA Clicks.noFlags 1000)).1
        (1000 + 300) = false →
      Clicks.flushEmits 300 (Clicks.clickStep 300 500 c4wSt
        (.click "bk" false Clicks.plainTarget Clicks.geomA Clicks.noFlags 1000)).1 = []) ∧
    (∀ (bk2 : String) (tgt2 : Clicks.ClickTarget) (geom2 : Clicks.Geom)
        (flags2 : Clicks.KeyFlags) (t2 : Nat), 1000 < t2 → t2 - 1000 < 300 →
      (Clicks.clickStep 300 500
          (Clicks.clickStep 300 500 c4wSt
            (.click "bk" false Clicks.plainTarget Clicks.geomA Clicks.noFlags 1000)).1
          (.click bk2 false tgt2 geom2 flags2 t2)).2 =
        [.double bk2 geom2 (Clicks.getKeyStatus c4wSt.keyState (some flags2))] ∧
      Clicks.flushEmits 300
        (Clicks.clickStep 300 500
          (Clicks.clickStep 300 500 c4wSt
            (.click "bk" false Clicks.plainTarget Clicks.geomA Clicks.noFlags 1000)).1
          (.click bk2 false tgt2 geom2 flags2 t2)).1 = []) :=
  c4_amended_deferred_single_click 300 500 c4wSt 1000 "bk" Clicks.plainTarget
    Clicks.geomA Clicks.noFlags rfl (by decide) (by decide) rfl

/-- C5 counterexample: the click stream on surface B (a single click at
time 1100) is classified differently depending on whether an interleaved
click on surface A at time 1000 is delivered: with the A click, B posts a
double click; without it, B posts nothing.  Clicks on one surface do
cause double-clicks on another, because lastClickTime is one module-wide
variable, not per-surface state. -/
theorem c5_counterexample_cross_surface :
    (Clicks.clickSim 300 500
        [.click "A" false Clicks.plainTarget Clicks.geomA Clicks.noFlags 1000,
         .click "B" false Clicks.plainTarget Clicks.geomB Clicks.noFlags 1100]).filter
        (fun e => decide (Clicks.emitBookKey e = "B")) ≠
      (Clicks.clickSim 300 500
        [.click "B" false Clicks.plainTarget Clicks.geomB Clicks.noFlags 1100]).filter
        (fun e => decide (Clicks.emitBookKey e = "B")) := by
  decide

/-- C5 amended: click-disambiguation state is module-global and shared
across surfaces: handleClick writes the one shared lastClickTime whatever
its bookKey (and whatever the disabled flag), and a click on surface B
within the threshold after a click on a different surface A completes a
double click on B. -/
theorem c5_amended_shared_click_state
    (T H : Nat) (st : Clicks.ClickSt) (bkA bkB : String)
    (tgtA tgtB : Clicks.ClickTarget) (gA gB : Clicks.Geom)
    (fA fB : Clicks.KeyFlags) (tA tB : Nat) (dis : Bool)
    (hgap : tB - tA < T) :
    (Clicks.clickStep T H st (.click bkA dis tgtA gA fA tA)).1.lastClickTime = tA ∧
    ((Clicks.clickStep T H
        (Clicks.clickStep T H st (.click bkA false tgtA gA fA tA)).1
        (.click bkB false tgtB gB fB tB)).2.countP (Clicks.isDoubleGeom gB) = 1) := by
  constructor
  · simp only [Clicks.clickStep, Clicks.CEvent.time, Clicks.runTimers]
    split
    · rfl
    · split <;> rfl
  · have h1 : (Clicks.clickStep T H st (.click bkA false tgtA gA fA tA)).1.lastClickTime
        = tA := by
      simp only [Clicks.clickStep, Clicks.CEvent.time, Clicks.runTimers]
      split
      · rfl
      · split <;> rfl
    set st1 := (Clicks.clickStep T H st (.click bkA false tgtA gA fA tA)).1 with hst1
    have hcond : (!false && decide (tB - (Clicks.runTimers T tB st1).1.lastClickTime < T))
        = true := by
      have : (Clicks.runTimers T tB st1).1.lastClickTime = st1.lastClickTime := rfl
      rw [this, h1]
      simpa using hgap
    simp only [Clicks.clickStep, Clicks.CEvent.time]
    rw [if_pos hcond]
    rw [List.countP_append]
    rw [Clicks.runTimers_double_zero T tB st1 gB]
    simp [Clicks.isDoubleGeom]

/-- Witness for C5 amended: surfaces A and B at times 1000 and 1100 with
threshold 300. -/
theorem c5_amended_shared_click_state_witness :
    (Clicks.clickStep 300 500 Clicks.clickInit
        (.click "A" false Clicks.plainTarget Clicks.geomA Clicks.noFlags 1000)).1.lastClickTime
      = 1000 ∧
    ((Clicks.clickStep 300 500
        (Clicks.clickStep 300 500 Clicks.clickInit
          (.click "A" false Clicks.plainTarget Clicks.geomA Clicks.noFlags 1000)).1
        (.click "B" false Clicks.plainTarget Clicks.geomB Clicks.noFlags 1100)).2.countP
        (Clicks.isDoubleGeom Clicks.geomB) = 1) :=
  c5_amended_shared_click_state 300 500 Clicks.clickInit "A" "B" Clicks.plainTarget
    Clicks.plainTarget Clicks.geomA Clicks.geomB Clicks.noFlags Clicks.noFlags
    1000 1100 false (by decide)

namespace Clicks

/-- The immediate postSingleClick of a disabled-disambiguation click
posts no single click with a different geometry. -/
theorem postSingleClick_toList_single_zero {a : Bool} {ks : KeyState} {bk : String}
    {tgt : ClickTarget} {geom : Geom} {flags : KeyFlags} (gq : Geom) (hne : geom ≠ gq) :
    ((postSingleClick a ks bk tgt geom flags).toList).countP (isSingleGeom gq) = 0 := by
  rcases h : postSingleClick a ks bk tgt geom flags with _ | e
  · rfl
  · rcases postSingleClick_shape h with ⟨txt, rfl⟩ | ⟨_, rfl⟩
    · simp [isSingleGeom]
    · simp [isSingleGeom, hne]

/-- postSingleClick never posts a double click. -/
theorem postSingleClick_toList_double_zero {a : Bool} {ks : KeyState} {bk : String}
    {tgt : ClickTarget} {geom : Geom} {flags : KeyFlags} (gq : Geom) :
    ((postSingleClick a ks bk tgt geom flags).toList).countP (isDoubleGeom gq) = 0 := by
  rcases h : postSingleClick a ks bk tgt geom flags with _ | e
  · rfl
  · rcases postSingleClick_shape h with ⟨txt, rfl⟩ | ⟨_, rfl⟩ <;> simp [isDoubleGeom]

/-- Any click step sets lastClickTime to the click time, keeps the
keyboard snapshot, and the pendings afterwards are old pendings or the
one deferred evaluation this click may have scheduled. -/
theorem clickStep_click_facts (T H : Nat) (st : ClickSt) (bk : String) (dis : Bool)
    (tgt : ClickTarget) (g : Geom) (f : KeyFlags) (t : Nat) :
    (clickStep T H st (.click bk dis tgt g f t)).1.lastClickTime = t ∧
    (clickStep T H st (.click bk dis tgt g f t)).1.keyState = st.keyState ∧
    ∀ p ∈ (clickStep T H st (.click bk dis tgt g f t)).1.pendings,
      p ∈ st.pendings ∨
        p = { fireAt := t + T, bookKey := bk, tgt := tgt, geom := g, flags := f } := by
  simp only [clickStep, CEvent.time]
  split
  next => exact ⟨rfl, rfl, fun p hp => Or.inl (List.mem_filter.mp hp).1⟩
  next =>
    split
    next =>
      refine ⟨rfl, rfl, fun p hp => ?_⟩
      rcases List.mem_append.mp hp with h | h
      · exact Or.inl (List.mem_filter.mp h).1
      · exact Or.inr (List.mem_singleton.mp h)
    next => exact ⟨rfl, rfl, fun p hp => Or.inl (List.mem_filter.mp hp).1⟩

/-- An enabled click posts no single click with geometry gq when every
due pending with that geometry evaluates to nothing. -/
theorem clickStep_click_false_single_zero (T H : Nat) (st : ClickSt) (bk : String)
    (tgt : ClickTarget) (g : Geom) (f : KeyFlags) (t : Nat) (gq : Geom)
    (hp : ∀ p ∈ st.pendings, p.fireAt ≤ t → p.geom = gq → evalPending T st p = none) :
    (clickStep T H st (.click bk false tgt g f t)).2.countP (isSingleGeom gq) = 0 := by
  simp only [clickStep, CEvent.time]
  split
  next =>
    rw [List.countP_append, runTimers_single_zero T t st gq hp]
    simp [isSingleGeom]
  next =>
    rw [if_pos (show (!false) = true from rfl)]
    exact runTimers_single_zero T t st gq hp

/-- An enabled click with geometry g posts no double click with a
different geometry. -/
theorem clickStep_click_false_double_zero (T H : Nat) (st : ClickSt) (bk : String)
    (tgt : ClickTarget) (g : Geom) (f : KeyFlags) (t : Nat) (gq : Geom) (hgq : g ≠ gq) :
    (clickStep T H st (.click bk false tgt g f t)).2.countP (isDoubleGeom gq) = 0 := by
  simp only [clickStep, CEvent.time]
  split
  next =>
    rw [List.countP_append, runTimers_double_zero T t st gq]
    simp [isDoubleGeom, hgq]
  next =>
    rw [if_pos (show (!false) = true from rfl)]
    exact runTimers_double_zero T t st gq

/-- An enabled click within the threshold of the previous click takes the
double-click branch: it posts the double click with its own geometry
after the due timer callbacks, updates lastClickTime, and schedules
nothing. -/
theorem clickStep_click_double_branch (T H : Nat) (st : ClickSt) (bk : String)
    (tgt : ClickTarget) (g : Geom) (f : KeyFlags) (t : Nat)
    (hcond : t - st.lastClickTime < T) :
    (clickStep T H st (.click bk false tgt g f t)).1 =
      { st with lastClickTime := t,
                lhArmed := st.lhArmed && st.lhNulls.all (fun n => decide (t < n)),
                lhNulls := st.lhNulls.filter (fun n => decide (t < n)),
                pendings := st.pendings.filter (fun p => decide (t < p.fireAt)) } ∧
    (clickStep T H st (.click bk false tgt g f t)).2 =
      (runTimers T t st).2 ++ [.double bk g (getKeyStatus st.keyState (some f))] := by
  simp only [clickStep, CEvent.time]
  rw [if_pos (by simp only [Bool.not_false, Bool.true_and, decide_eq_true_eq]; exact hcond)]
  exact ⟨rfl, rfl⟩

/-- One step of any later event (time at least t2, geometry fresh)
preserves the pair invariant — lastClickTime at least t2, no pending with
the second geometry, every pending with the first geometry due by t1 + T
— and posts no single click with either geometry and no double click
with the second. -/
theorem c1_step_preserve (T H : Nat) (hT : 0 < T) (g1 g2 : Geom) (t1 t2 : Nat)
    (st : ClickSt) (ev : CEvent)
    (hinv1 : t2 ≤ st.lastClickTime)
    (hinv2 : ∀ p ∈ st.pendings, p.geom ≠ g2 ∧ (p.geom = g1 → p.fireAt ≤ t1 + T))
    (h12 : t1 < t2)
    (hev_t : t2 ≤ ev.time)
    (hev_g1 : ev.clickGeom ≠ some g1) (hev_g2 : ev.clickGeom ≠ some g2) :
    (t2 ≤ (clickStep T H st ev).1.lastClickTime ∧
      ∀ p ∈ (clickStep T H st ev).1.pendings,
        p.geom ≠ g2 ∧ (p.geom = g1 → p.fireAt ≤ t1 + T)) ∧
    (clickStep T H st ev).2.countP (isSingleGeom g1) = 0 ∧
    (clickStep T H st ev).2.countP (isSingleGeom g2) = 0 ∧
    (clickStep T H st ev).2.countP (isDoubleGeom g2) = 0 := by
  have finv : ∀ p ∈ (runTimers T ev.time st).1.pendings,
      p.geom ≠ g2 ∧ (p.geom = g1 → p.fireAt ≤ t1 + T) := by
    intro p hp
    exact hinv2 p (List.mem_filter.mp hp).1
  have hs1 : (runTimers T ev.time st).2.countP (isSingleGeom g1) = 0 := by
    apply runTimers_single_zero
    intro p hp _ hg
    refine evalPending_none_of_late hT ?_
    have := (hinv2 p hp).2 hg
    omega
  have hs2 : (runTimers T ev.time st).2.countP (isSingleGeom g2) = 0 := by
    apply runTimers_single_zero
    intro p hp _ hg
    exact absurd hg (hinv2 p hp).1
  have hd2 : (runTimers T ev.time st).2.countP (isDoubleGeom g2) = 0 :=
    runTimers_double_zero T ev.time st g2
  cases ev with
  | keydown k c f t => exact ⟨⟨hinv1, finv⟩, hs1, hs2, hd2⟩
  | keyup k c f t => exact ⟨⟨hinv1, finv⟩, hs1, hs2, hd2⟩
  | mousedown bk t => exact ⟨⟨hinv1, finv⟩, hs1, hs2, hd2⟩
  | click bk dis tgt g f t =>
      have hg1 : g ≠ g1 := fun h => hev_g1 (by simp [CEvent.clickGeom, h])
      have hg2 : g ≠ g2 := fun h => hev_g2 (by simp [CEvent.clickGeom, h])
      have htt : t2 ≤ t := hev_t
      simp only [clickStep, CEvent.time] at hs1 hs2 hd2 finv ⊢
      split
      next hdbl =>
        refine ⟨⟨htt, finv⟩, ?_, ?_, ?_⟩
        · rw [List.countP_append, hs1]
          simp [isSingleGeom]
        · rw [List.countP_append, hs2]
          simp [isSingleGeom]
        · rw [List.countP_append, hd2]
          simp [isDoubleGeom, hg2]
      next hdbl =>
        split
        next hnd =>
          refine ⟨⟨htt, ?_⟩, hs1, hs2, hd2⟩
          intro p hp
          rcases List.mem_append.mp hp with h1 | h1
          · exact finv p h1
          · rcases List.mem_singleton.mp h1 with rfl
            exact ⟨fun h => hg2 (by simpa using h),
                   fun h => absurd (by simpa using h) hg1⟩
        next hnd =>
          refine ⟨⟨htt, finv⟩, ?_, ?_, ?_⟩
          · rw [List.countP_append, hs1, postSingleClick_toList_single_zero g1 hg1]
          · rw [List.countP_append, hs2, postSingleClick_toList_single_zero g2 hg2]
          · rw [List.countP_append, hd2, postSingleClick_toList_double_zero g2]

/-- Running any later events (plus the final flush) posts no single
click with either geometry of the pair and no further double click with
the second geometry. -/
theorem c1_run_preserve (T H : Nat) (hT : 0 < T) (g1 g2 : Geom) (t1 t2 : Nat)
    (h12 : t1 < t2) (st : ClickSt) (evs : List CEvent)
    (hinv1 : t2 ≤ st.lastClickTime)
    (hinv2 : ∀ p ∈ st.pendings, p.geom ≠ g2 ∧ (p.geom = g1 → p.fireAt ≤ t1 + T))
    (hevs : ∀ ev ∈ evs, t2 ≤ ev.time ∧ ev.clickGeom ≠ some g1 ∧ ev.clickGeom ≠ some g2) :
    ((clickRun T H st evs).2 ++ flushEmits T (clickRun T H st evs).1).countP
      (isSingleGeom g1) = 0 ∧
    ((clickRun T H st evs).2 ++ flushEmits T (clickRun T H st evs).1).countP
      (isSingleGeom g2) = 0 ∧
    ((clickRun T H st evs).2 ++ flushEmits T (clickRun T H st evs).1).countP
      (isDoubleGeom g2) = 0 := by
  induction evs generalizing st with
  | nil =>
      simp only [clickRun, List.foldl_nil, List.nil_append]
      refine ⟨?_, ?_, flushEmits_double_zero T st g2⟩
      · apply flushEmits_single_zero
        intro p hp hg
        refine evalPending_none_of_late hT ?_
        have := (hinv2 p hp).2 hg
        omega
      · apply flushEmits_single_zero
        intro p hp hg
        exact absurd hg (hinv2 p hp).1
  | cons ev rest ih =>
      rw [clickRun_cons]
      obtain ⟨⟨hi1, hi2⟩, hc1, hc2, hc3⟩ :=
        c1_step_preserve T H hT g1 g2 t1 t2 st ev hinv1 hinv2 h12
          (hevs ev (by simp)).1 (hevs ev (by simp)).2.1 (hevs ev (by simp)).2.2
      obtain ⟨ih1, ih2, ih3⟩ :=
        ih (clickStep T H st ev).1 hi1 hi2 (fun e2 he2 => hevs e2 (by simp [he2]))
      rw [List.append_assoc]
      refine ⟨?_, ?_, ?_⟩
      · rw [List.countP_append, hc1, ih1]
      · rw [List.countP_append, hc2, ih2]
      · rw [List.countP_append, hc3, ih3]

end Clicks

/-- C1 amended: for every pair of enabled consecutive clicks with
strictly positive inter-click gap below the threshold, delivered after an
arbitrary history (any state whose pendings do not already carry the two
geometries) and followed by arbitrary later events not reusing them:
exactly one double click with the second click geometry is posted, no
single click with either geometry is ever posted (timers and final flush
included), the second click schedules no deferred evaluation, and a third
enabled click within the window posts a second double click and no
single click. -/
theorem c1_amended_double_click_pair
    (T H : Nat) (hT : 0 < T)
    (st0 : Clicks.ClickSt) (bk1 bk2 : String) (tgt1 tgt2 : Clicks.ClickTarget)
    (g1 g2 : Clicks.Geom) (f1 f2 : Clicks.KeyFlags) (t1 t2 : Nat)
    (post : List Clicks.CEvent)
    (h12 : t1 < t2)
    (hgap : t2 - t1 < T)
    (hg : g1 ≠ g2)
    (hfresh : ∀ p ∈ st0.pendings, p.geom ≠ g1 ∧ p.geom ≠ g2)
    (hpost : ∀ ev ∈ post,
      t2 ≤ ev.time ∧ ev.clickGeom ≠ some g1 ∧ ev.clickGeom ≠ some g2) :
    ((Clicks.clickRun T H st0
        (Clicks.CEvent.click bk1 false tgt1 g1 f1 t1 ::
          Clicks.CEvent.click bk2 false tgt2 g2 f2 t2 :: post)).2 ++
      Clicks.flushEmits T (Clicks.clickRun T H st0
        (Clicks.CEvent.click bk1 false tgt1 g1 f1 t1 ::
          Clicks.CEvent.click bk2 false tgt2 g2 f2 t2 :: post)).1).countP
      (Clicks.isDoubleGeom g2) = 1 ∧
    ((Clicks.clickRun T H st0
        (Clicks.CEvent.click bk1 false tgt1 g1 f1 t1 ::
          Clicks.CEvent.click bk2 false tgt2 g2 f2 t2 :: post)).2 ++
      Clicks.flushEmits T (Clicks.clickRun T H st0
        (Clicks.CEvent.click bk1 false tgt1 g1 f1 t1 ::
          Clicks.CEvent.click bk2 false tgt2 g2 f2 t2 :: post)).1).countP
      (Clicks.isSingleGeom g1) = 0 ∧
    ((Clicks.clickRun T H st0
        (Clicks.CEvent.click bk1 false tgt1 g1 f1 t1 ::
          Clicks.CEvent.click bk2 false tgt2 g2 f2 t2 :: post)).2 ++
      Clicks.flushEmits T (Clicks.clickRun T H st0
        (Clicks.CEvent.click bk1 false tgt1 g1 f1 t1 ::
          Clicks.CEvent.click bk2 false tgt2 g2 f2 t2 :: post)).1).countP
      (Clicks.isSingleGeom g2) = 0 ∧
    (∀ p ∈ (Clicks.clickRun T H st0
        [Clicks.CEvent.click bk1 false tgt1 g1 f1 t1,
         Clicks.CEvent.click bk2 false tgt2 g2 f2 t2]).1.pendings, p.geom ≠ g2) ∧
    (∀ (bk3 : String) (tgt3 : Clicks.ClickTarget) (g3 : Clicks.Geom)
        (f3 : Clicks.KeyFlags) (t3 : Nat),
      t3 - t2 < T → g3 ≠ g1 → (∀ p ∈ st0.pendings, p.geom ≠ g3) →
      (Clicks.clickStep T H (Clicks.clickRun T H st0
          [Clicks.CEvent.click bk1 false tgt1 g1 f1 t1,
           Clicks.CEvent.click bk2 false tgt2 g2 f2 t2]).1
          (.click bk3 false tgt3 g3 f3 t3)).2.countP (Clicks.isDoubleGeom g3) = 1 ∧
      (Clicks.clickStep T H (Clicks.clickRun T H st0
          [Clicks.CEvent.click bk1 false tgt1 g1 f1 t1,
           Clicks.CEvent.click bk2 false tgt2 g2 f2 t2]).1
          (.click bk3 false tgt3 g3 f3 t3)).2.countP (Clicks.isSingleGeom g3) = 0) := by
  obtain ⟨h1last, h1key, h1pend⟩ :=
    Clicks.clickStep_click_facts T H st0 bk1 false tgt1 g1 f1 t1
  have hd2cond : t2 - (Clicks.clickStep T H st0
      (.click bk1 false tgt1 g1 f1 t1)).1.lastClickTime < T := by
    rw [h1last]; exact hgap
  obtain ⟨h2st, h2em⟩ :=
    Clicks.clickStep_click_double_branch T H
      (Clicks.clickStep T H st0 (.click bk1 false tgt1 g1 f1 t1)).1 bk2 tgt2 g2 f2 t2 hd2cond
  have h2last : (Clicks.clickStep T H
      (Clicks.clickStep T H st0 (.click bk1 false tgt1 g1 f1 t1)).1
      (.click bk2 false tgt2 g2 f2 t2)).1.lastClickTime = t2 := by
    rw [h2st]
  have h2pend : ∀ p ∈ (Clicks.clickStep T H
      (Clicks.clickStep T H st0 (.click bk1 false tgt1 g1 f1 t1)).1
      (.click bk2 false tgt2 g2 f2 t2)).1.pendings,
      p ∈ (Clicks.clickStep T H st0 (.click bk1 false tgt1 g1 f1 t1)).1.pendings := by
    rw [h2st]
    intro p hp
    exact (List.mem_filter.mp hp).1
  have hinv2 : ∀ p ∈ (Clicks.clickStep T H
      (Clicks.clickStep T H st0 (.click bk1 false tgt1 g1 f1 t1)).1
      (.click bk2 false tgt2 g2 f2 t2)).1.pendings,
      p.geom ≠ g2 ∧ (p.geom = g1 → p.fireAt ≤ t1 + T) := by
    intro p hp
    rcases h1pend p (h2pend p hp) with h | h
    · exact ⟨(hfresh p h).2, fun hgg => absurd hgg (hfresh p h).1⟩
    · subst h
      exact ⟨fun hgg => absurd hgg hg, fun _ => le_refl _⟩
  have c1s1 : (Clicks.clickStep T H st0
      (.click bk1 false tgt1 g1 f1 t1)).2.countP (Clicks.isSingleGeom g1) = 0 := by
    apply Clicks.clickStep_click_false_single_zero
    intro p hp _ hgg
    exact absurd hgg (hfresh p hp).1
  have c1s2 : (Clicks.clickStep T H st0
      (.click bk1 false tgt1 g1 f1 t1)).2.countP (Clicks.isSingleGeom g2) = 0 := by
    apply Clicks.clickStep_click_false_single_zero
    intro p hp _ hgg
    exact absurd hgg (hfresh p hp).2
  have c1d2 : (Clicks.clickStep T H st0
      (.click bk1 false tgt1 g1 f1 t1)).2.countP (Clicks.isDoubleGeom g2) = 0 :=
    Clicks.clickStep_click_false_double_zero T H st0 bk1 tgt1 g1 f1 t1 g2 hg
  have c2s1 : (Clicks.clickStep T H
      (Clicks.clickStep T H st0 (.click bk1 false tgt1 g1 f1 t1)).1
      (.click bk2 false tgt2 g2 f2 t2)).2.countP (Clicks.isSingleGeom g1) = 0 := by
    rw [h2em, List.countP_append, Clicks.runTimers_single_zero T t2 _ g1 ?_]
    · simp [Clicks.isSingleGeom]
    · intro p hp hdue hgg
      refine Clicks.evalPending_none_of_late hT ?_
      rw [h1last]
      omega
  have c2s2 : (Clicks.clickStep T H
      (Clicks.clickStep T H st0 (.click bk1 false tgt1 g1 f1 t1)).1
      (.click bk2 false tgt2 g2 f2 t2)).2.countP (Clicks.isSingleGeom g2) = 0 := by
    rw [h2em, List.countP_append, Clicks.runTimers_single_zero T t2 _ g2 ?_]
    · simp [Clicks.isSingleGeom]
    · intro p hp _ hgg
      rcases h1pend p hp with h | h
      · exact absurd hgg (hfresh p h).2
      · subst h
        exact absurd hgg hg
  have c2d2 : (Clicks.clickStep T H
      (Clicks.clickStep T H st0 (.click bk1 false tgt1 g1 f1 t1)).1
      (.click bk2 false tgt2 g2 f2 t2)).2.countP (Clicks.isDoubleGeom g2) = 1 := by
    rw [h2em, List.countP_append, Clicks.runTimers_double_zero]
    simp [Clicks.isDoubleGeom]
  obtain ⟨hr1, hr2, hr3⟩ :=
    Clicks.c1_run_preserve T H hT g1 g2 t1 t2 h12
      (Clicks.clickStep T H
        (Clicks.clickStep T H st0 (.click bk1 false tgt1 g1 f1 t1)).1
        (.click bk2 false tgt2 g2 f2 t2)).1 post (le_of_eq h2last.symm) hinv2 hpost
  rw [List.countP_append] at hr1 hr2 hr3
  have hrun2 : (Clicks.clickRun T H st0
      [Clicks.CEvent.click bk1 false tgt1 g1 f1 t1,
       Clicks.CEvent.click bk2 false tgt2 g2 f2 t2]).1 =
      (Clicks.clickStep T H
        (Clicks.clickStep T H st0 (.click bk1 false tgt1 g1 f1 t1)).1
        (.click bk2 false tgt2 g2 f2 t2)).1 := by
    rw [Clicks.clickRun_cons, Clicks.clickRun_cons]
    simp [Clicks.clickRun]
  refine ⟨?_, ?_, ?_, ?_, ?_⟩
  · rw [Clicks.clickRun_cons, Clicks.clickRun_cons]
    simp only [List.append_assoc, List.countP_append]
    omega
  · rw [Clicks.clickRun_cons, Clicks.clickRun_cons]
    simp only [List.append_assoc, List.countP_append]
    omega
  · rw [Clicks.clickRun_cons, Clicks.clickRun_cons]
    simp only [List.append_assoc, List.countP_append]
    omega
  · rw [hrun2]
    intro p hp
    exact (hinv2 p hp).1
  · intro bk3 tgt3 g3 f3 t3 ht3 hg13 hfr3
    rw [hrun2]
    have hd3cond : t3 - (Clicks.clickStep T H
        (Clicks.clickStep T H st0 (.click bk1 false tgt1 g1 f1 t1)).1
        (.click bk2 false tgt2 g2 f2 t2)).1.lastClickTime < T := by
      rw [h2last]; exact ht3
    obtain ⟨h3st, h3em⟩ :=
      Clicks.clickStep_click_double_branch T H
        (Clicks.clickStep T H
          (Clicks.clickStep T H st0 (.click bk1 false tgt1 g1 f1 t1)).1
          (.click bk2 false tgt2 g2 f2 t2)).1 bk3 tgt3 g3 f3 t3 hd3cond
    constructor
    · rw [h3em, List.countP_append, Clicks.runTimers_double_zero]
      simp [Clicks.isDoubleGeom]
    · rw [h3em, List.countP_append, Clicks.runTimers_single_zero T t3 _ g3 ?_]
      · simp [Clicks.isSingleGeom]
      · intro p hp _ hgg
        rcases h1pend p (h2pend p hp) with h | h
        · exact absurd hgg (hfr3 p h)
        · subst h
          exact absurd hgg.symm hg13

/-- C1 counterexample: two enabled clicks in the same millisecond (gap 0,
which is strictly below the threshold 300) after a mousedown.  The second
click posts the double click, but the deferred evaluation of the first
click then ALSO posts a single click for the pair — its check now minus
lastClickTime at least threshold passes because lastClickTime still
equals the first click time — where the claim says zero single-click
events are emitted for that pair. -/
theorem c1_counterexample_zero_gap :
    Clicks.clickSim 300 500
      [.mousedown "bk" 1000,
       .click "bk" false Clicks.plainTarget Clicks.geomA Clicks.noFlags 1000,
       .click "bk" false Clicks.plainTarget Clicks.geomB Clicks.noFlags 1000] =
      [.double "bk" Clicks.geomB
         (Clicks.getKeyStatus Clicks.clickInit.keyState (some Clicks.noFlags)),
       .single "bk" Clicks.geomA
         (Clicks.getKeyStatus Clicks.clickInit.keyState (some Clicks.noFlags))] := by
  rfl

/-- Witness for C1 amended: pair at times 1000 and 1100 (gap 100 below
threshold 300), starting at module load, no later events. -/
theorem c1_amended_double_click_pair_witness :
    ((Clicks.clickRun 300 500 Clicks.clickInit
        (Clicks.CEvent.click "bk" false Clicks.plainTarget Clicks.geomA Clicks.noFlags 1000 ::
          Clicks.CEvent.click "bk" false Clicks.plainTarget Clicks.geomB Clicks.noFlags 1100 ::
          [])).2 ++
      Clicks.flushEmits 300 (Clicks.clickRun 300 500 Clicks.clickInit
        (Clicks.CEvent.click "bk" false Clicks.plainTarget Clicks.geomA Clicks.noFlags 1000 ::
          Clicks.CEvent.click "bk" false Clicks.plainTarget Clicks.geomB Clicks.noFlags 1100 ::
          [])).1).countP
      (Clicks.isDoubleGeom Clicks.geomB) = 1 ∧
    ((Clicks.clickRun 300 500 Clicks.clickInit
        (Clicks.CEvent.click "bk" false Clicks.plainTarget Clicks.geomA Clicks.noFlags 1000 ::
          Clicks.CEvent.click "bk" false Clicks.plainTarget Clicks.geomB Clicks.noFlags 1100 ::
          [])).2 ++
      Clicks.flushEmits 300 (Clicks.clickRun 300 500 Clicks.clickInit
        (Clicks.CEvent.click "bk" false Clicks.plainTarget Clicks.geomA Clicks.noFlags 1000 ::
          Clicks.CEvent.click "bk" false Clicks.plainTarget Clicks.geomB Clicks.noFlags 1100 ::
          [])).1).countP
      (Clicks.isSingleGeom Clicks.geomA) = 0 ∧
    ((Clicks.clickRun 300 500 Clicks.clickInit
        (Clicks.CEvent.click "bk" false Clicks.plainTarget Clicks.geomA Clicks.noFlags 1000 ::
          Clicks.CEvent.click "bk" false Clicks.plainTarget Clicks.geomB Clicks.noFlags 1100 ::
          [])).2 ++
      Clicks.flushEmits 300 (Clicks.clickRun 300 500 Clicks.clickInit
        (Clicks.CEvent.click "bk" false Clicks.plainTarget Clicks.geomA Clicks.noFlags 1000 ::
          Clicks.CEvent.click "bk" false Clicks.plainTarget Clicks.geomB Clicks.noFlags 1100 ::
          [])).1).countP
      (Clicks.isSingleGeom Clicks.geomB) = 0 ∧
    (∀ p ∈ (Clicks.clickRun 300 500 Clicks.clickInit
        [Clicks.CEvent.click "bk" false Clicks.plainTarget Clicks.geomA Clicks.noFlags 1000,
         Clicks.CEvent.click "bk" false Clicks.plainTarget Clicks.geomB Clicks.noFlags 1100]).1.pendings,
      p.geom ≠ Clicks.geomB) ∧
    (∀ (bk3 : String) (tgt3 : Clicks.ClickTarget) (g3 : Clicks.Geom)
        (f3 : Clicks.KeyFlags) (t3 : Nat),
      t3 - 1100 < 300 → g3 ≠ Clicks.geomA →
      (∀ p ∈ Clicks.clickInit.pendings, p.geom ≠ g3) →
      (Clicks.clickStep 300 500 (Clicks.clickRun 300 500 Clicks.clickInit
          [Clicks.CEvent.click "bk" false Clicks.plainTarget Clicks.geomA Clicks.noFlags 1000,
           Clicks.CEvent.click "bk" false Clicks.plainTarget Clicks.geomB Clicks.noFlags 1100]).1
          (.click bk3 false tgt3 g3 f3 t3)).2.countP (Clicks.isDoubleGeom g3) = 1 ∧
      (Clicks.clickStep 300 500 (Clicks.clickRun 300 500 Clicks.clickInit
          [Clicks.CEvent.click "bk" false Clicks.plainTarget Clicks.geomA Clicks.noFlags 1000,
           Clicks.CEvent.click "bk" false Clicks.plainTarget Clicks.geomB Clicks.noFlags 1100]).1
          (.click bk3 false tgt3 g3 f3 t3)).2.countP (Clicks.isSingleGeom g3) = 0) :=
  c1_amended_double_click_pair 300 500 (by decide) Clicks.clickInit "bk" "bk"
    Clicks.plainTarget Clicks.plainTarget Clicks.geomA Clicks.geomB Clicks.noFlags
    Clicks.noFlags 1000 1100 [] (by decide) (by decide) (by decide)
    (by simp [Clicks.clickInit]) (by simp)

namespace LongPress

/-- Map.get after Map.set of the same key. -/
theorem getEntry_setEntry {α : Type} (k : LPElem) (v : α) (m : List (LPElem × α)) :
    getEntry k (setEntry k v m) = some v := by
  unfold getEntry setEntry
  rw [List.find?_append, List.find?_eq_none.mpr ?_]
  · simp
  · intro x hx
    have hne := (List.mem_filter.mp hx).2
    simpa using hne

/-- Map.get after Map.delete of the same key. -/
theorem getEntry_delEntry {α : Type} (k : LPElem) (m : List (LPElem × α)) :
    getEntry k (delEntry k m) = none := by
  unfold getEntry delEntry
  rw [List.find?_eq_none.mpr ?_]
  · rfl
  · intro x hx
    have hne := (List.mem_filter.mp hx).2
    simpa using hne

/-- Nothing keyed by k remains after Map.delete of k. -/
theorem not_mem_delEntry {α : Type} (k : LPElem) (d : α) (m : List (LPElem × α)) :
    (k, d) ∉ delEntry k m := by
  intro h
  have hne := (List.mem_filter.mp h).2
  simp at hne

/-- Membership after Map.set. -/
theorem mem_setEntry {α : Type} {k : LPElem} {v : α} {m : List (LPElem × α)}
    {q : LPElem × α} (h : q ∈ setEntry k v m) : q ∈ m ∨ q = (k, v) := by
  rcases List.mem_append.mp h with h1 | h1
  · exact Or.inl (List.mem_filter.mp h1).1
  · exact Or.inr (List.mem_singleton.mp h1)

/-- lpRun with a nonempty accumulator prepends it to the emissions. -/
theorem lpRun_acc (evs : List LPEvent) (st : LPState) (es : List (LPElem × LPPayload)) :
    evs.foldl (fun acc ev =>
      let r := lpStep acc.1 ev
      (r.1, acc.2 ++ r.2)) (st, es) =
      ((lpRun st evs).1, es ++ (lpRun st evs).2) := by
  induction evs generalizing st es with
  | nil => simp [lpRun]
  | cons ev rest ih =>
      simp only [lpRun, List.foldl_cons]
      rw [ih, ih]
      simp

/-- Unfolding one event of lpRun. -/
theorem lpRun_cons (st : LPState) (ev : LPEvent) (evs : List LPEvent) :
    lpRun st (ev :: evs) =
      ((lpRun (lpStep st ev).1 evs).1,
       (lpStep st ev).2 ++ (lpRun (lpStep st ev).1 evs).2) := by
  simp only [lpRun, List.foldl_cons]
  rw [lpRun_acc]
  simp [lpRun]

/-- A step on an event that is not a press resolving to el neither arms a
timer for el nor emits for el, provided el has no armed timer. -/
theorem lpStep_no_el (el : LPElem) (st : LPState) (ev : LPEvent)
    (ht : ∀ d, (el, d) ∉ st.timers)
    (hnp : ¬ LPEvent.pressResolvesTo el ev) :
    (∀ d, (el, d) ∉ (lpStep st ev).1.timers) ∧
      ∀ e ∈ (lpStep st ev).2, e.1 ≠ el := by
  have hfe : ∀ e ∈ (fireDue ev.time st).2, e.1 ≠ el := by
    intro e he
    rcases List.mem_filterMap.mp he with ⟨q, hq, hmap⟩
    rcases Option.map_eq_some'.mp hmap with ⟨pay, _, rfl⟩
    intro hqel
    exact ht q.2 (by
      have hmem := (List.mem_filter.mp hq).1
      rwa [show q = (el, q.2) from Prod.ext hqel rfl] at hmem)
  have hft : ∀ d, (el, d) ∉ (fireDue ev.time st).1.timers := by
    intro d hd
    exact ht d (List.mem_filter.mp hd).1
  refine ⟨?_, hfe⟩
  cases ev with
  | press tg pos t =>
      dsimp only [lpStep, lpHandle]
      cases hres : resolveTrack tg with
      | none => exact hft
      | some el2 =>
          have hne : el2 ≠ el := fun h => hnp (by simpa [LPEvent.pressResolvesTo, hres])
          dsimp only
          split
          next =>
            intro d hd
            cases pos with
            | some p =>
                rcases mem_setEntry hd with h1 | h1
                · exact hft d h1
                · exact hne (congrArg Prod.fst h1).symm
            | none =>
                rcases mem_setEntry hd with h1 | h1
                · exact hft d h1
                · exact hne (congrArg Prod.fst h1).symm
          next => exact hft
  | move tg pos t =>
      dsimp only [lpStep, lpHandle]
      cases hres : resolveTrack tg with
      | none => exact hft
      | some el2 =>
          dsimp only
          split
          next =>
            cases hg : getEntry el2 (fireDue (LPEvent.move tg pos t).time st).1.startPositions with
            | none => exact hft
            | some sp =>
                dsimp only
                split
                next =>
                  intro d hd
                  exact hft d (List.mem_filter.mp hd).1
                next => exact hft
          next => exact hft
  | up tg t =>
      dsimp only [lpStep, lpHandle]
      cases hres : resolveTrack tg with
      | none => exact hft
      | some el2 =>
          dsimp only
          split
          next =>
            intro d hd
            exact hft d (List.mem_filter.mp hd).1
          next => exact hft
  | setSelection s t => exact hft
  | mutation added t =>
      dsimp only [lpStep, lpHandle]
      split
      next => exact hft
      next => exact hft
  | teardown t =>
      intro d hd
      simp [lpStep, lpHandle] at hd

/-- A run of events none of which is a press resolving to el never emits
for el, provided el starts with no armed timer; the flush included. -/
theorem lpRun_no_el (el : LPElem) (st : LPState) (evs : List LPEvent)
    (ht : ∀ d, (el, d) ∉ st.timers)
    (hnp : ∀ ev ∈ evs, ¬ LPEvent.pressResolvesTo el ev) :
    (∀ d, (el, d) ∉ (lpRun st evs).1.timers) ∧
      ∀ e ∈ (lpRun st evs).2 ++ lpFlush (lpRun st evs).1, e.1 ≠ el := by
  induction evs generalizing st with
  | nil =>
      refine ⟨ht, ?_⟩
      intro e he
      simp only [lpRun, List.foldl_nil, List.nil_append] at he
      rcases List.mem_filterMap.mp he with ⟨q, hq, hmap⟩
      rcases Option.map_eq_some'.mp hmap with ⟨pay, _, rfl⟩
      intro hqel
      exact ht q.2 (by rwa [show q = (el, q.2) from Prod.ext hqel rfl] at hq)
  | cons ev rest ih =>
      rw [lpRun_cons]
      obtain ⟨ht2, hes⟩ := lpStep_no_el el st ev ht (hnp ev (by simp))
      obtain ⟨ht3, hrest⟩ := ih (lpStep st ev).1 ht2 (fun e2 he2 => hnp e2 (by simp [he2]))
      refine ⟨ht3, ?_⟩
      intro e he
      rcases List.mem_append.mp he with h1 | h1
      · rcases List.mem_append.mp h1 with h2 | h2
        · exact hes e h2
        · exact hrest e (List.mem_append_left _ h2)
      · exact hrest e (List.mem_append_right _ h1)

end LongPress

/-- C6 counterexample: teardown is invoked at time 0, then a press is
delivered to the image instrumented before teardown; the still-attached
listeners arm a fresh timer and it fires an iframe-long-press into the
torn-down context — where the claim says that after teardown no
subsequent event on a previously instrumented element causes a long-press
callback to fire. -/
theorem c6_counterexample_press_after_teardown :
    LongPress.lpSim [LongPress.imgElem]
      [.teardown 0, .press LongPress.imgElem (some (0, 0)) 1] =
      [(LongPress.imgElem, .image "pic")] := by
  rfl

/-- C6 amended: after the teardown closure runs, mutation observation is
off (a childList mutation instruments nothing), every outstanding timer
is cleared so no already-armed timer ever fires (the flush is empty), a
second teardown is a no-op returning the same state with no emission (and
being a total function it cannot throw), and any further events that do
not include a press produce no long-press at all.  What teardown does not
do is remove the element listeners, so a NEW press after teardown can
still arm a timer and fire (the counterexample). -/
theorem c6_amended_teardown (st : LongPress.LPState) (t : Nat) :
    (LongPress.lpStep st (.teardown t)).1.observing = false ∧
    (LongPress.lpStep st (.teardown t)).1.timers = [] ∧
    LongPress.lpFlush (LongPress.lpStep st (.teardown t)).1 = [] ∧
    (∀ (added : List LongPress.LPElem) (u : Nat),
      LongPress.lpStep (LongPress.lpStep st (.teardown t)).1 (.mutation added u) =
        ((LongPress.lpStep st (.teardown t)).1, [])) ∧
    (∀ u : Nat,
      LongPress.lpStep (LongPress.lpStep st (.teardown t)).1 (.teardown u) =
        ((LongPress.lpStep st (.teardown t)).1, [])) ∧
    (∀ evs : List LongPress.LPEvent,
      (∀ ev ∈ evs, ∀ tg pos u, ev ≠ .press tg pos u) →
      (LongPress.lpRun (LongPress.lpStep st (.teardown t)).1 evs).2 ++
        LongPress.lpFlush
          (LongPress.lpRun (LongPress.lpStep st (.teardown t)).1 evs).1 = []) := by
  refine ⟨rfl, rfl, rfl, fun added u => rfl, fun u => rfl, ?_⟩
  intro evs hp
  rw [List.eq_nil_iff_forall_not_mem]
  intro e he
  refine (LongPress.lpRun_no_el e.1 _ evs ?_ ?_).2 e he rfl
  · intro d hd
    simp [LongPress.lpStep, LongPress.lpHandle, LongPress.fireDue] at hd
  · intro ev hev
    cases ev
    case press tg pos u => exact fun _ => absurd rfl (hp _ hev tg pos u)
    all_goals exact fun h => h

/-- Witness for C6 amended: teardown at time 10 on the armed state, then
an up, a selection change and a mutation — no long-press fires. -/
theorem c6_amended_teardown_witness :
    (LongPress.lpStep c6wSt (.teardown 10)).1.observing = false ∧
    (LongPress.lpStep c6wSt (.teardown 10)).1.timers = [] ∧
    LongPress.lpFlush (LongPress.lpStep c6wSt (.teardown 10)).1 = [] ∧
    (LongPress.lpStep (LongPress.lpStep c6wSt (.teardown 10)).1
        (.mutation [LongPress.imgElem] 20) =
      ((LongPress.lpStep c6wSt (.teardown 10)).1, [])) ∧
    (LongPress.lpStep (LongPress.lpStep c6wSt (.teardown 10)).1 (.teardown 30) =
      ((LongPress.lpStep c6wSt (.teardown 10)).1, [])) ∧
    ((LongPress.lpRun (LongPress.lpStep c6wSt (.teardown 10)).1
        [.up LongPress.imgElem 40, .setSelection "x" 50]).2 ++
      LongPress.lpFlush
        (LongPress.lpRun (LongPress.lpStep c6wSt (.teardown 10)).1
          [.up LongPress.imgElem 40, .setSelection "x" 50]).1 = []) :=
  ⟨(c6_amended_teardown c6wSt 10).1,
   (c6_amended_teardown c6wSt 10).2.1,
   (c6_amended_teardown c6wSt 10).2.2.1,
   (c6_amended_teardown c6wSt 10).2.2.2.1 [LongPress.imgElem] 20,
   (c6_amended_teardown c6wSt 10).2.2.2.2.1 30,
   (c6_amended_teardown c6wSt 10).2.2.2.2.2 [.up LongPress.imgElem 40, .setSelection "x" 50]
     (by simp)⟩

namespace LongPress

/-- Timers fire only for elements present in the armed map. -/
theorem fireDue_no_el (el : LPElem) (st : LPState) (t : Nat)
    (ht : ∀ d, (el, d) ∉ st.timers) :
    ∀ e ∈ (fireDue t st).2, e.1 ≠ el := by
  intro e he
  rcases List.mem_filterMap.mp he with ⟨q, hq, hmap⟩
  rcases Option.map_eq_some'.mp hmap with ⟨pay, _, rfl⟩
  intro hqel
  exact ht q.2 (by
    have hmem := (List.mem_filter.mp hq).1
    rwa [show q = (el, q.2) from Prod.ext hqel rfl] at hmem)

/-- Timers fire at a cutoff only for map entries due by it. -/
theorem fireDue_no_el_late (el : LPElem) (st : LPState) (t : Nat)
    (ht : ∀ d, (el, d) ∈ st.timers → ¬ d ≤ t) :
    ∀ e ∈ (fireDue t st).2, e.1 ≠ el := by
  intro e he
  rcases List.mem_filterMap.mp he with ⟨q, hq, hmap⟩
  rcases Option.map_eq_some'.mp hmap with ⟨pay, _, rfl⟩
  intro hqel
  have hmem := (List.mem_filter.mp hq).1
  have hdue := (List.mem_filter.mp hq).2
  refine ht q.2 ?_ (by simpa using hdue)
  rwa [show q = (el, q.2) from Prod.ext hqel rfl] at hmem

end LongPress

/-- C7: pressing a qualifying element records its start position and arms
its 500-unit timer; a move on the same element before the timer elapses
whose squared distance from the recorded start exceeds the squared
10-unit threshold cancels the armed timer and removes both the timer and
start-position entries, and no long-press ever fires for that press —
neither during these two steps nor in any later events that do not press
the element again, the final flush included. -/
theorem c7_move_beyond_threshold_cancels
    (st : LongPress.LPState) (tg1 tg2 el : LongPress.LPElem)
    (p q : ℚ × ℚ) (t t2 : Nat)
    (h1 : LongPress.resolveTrack tg1 = some el)
    (h2 : LongPress.resolveTrack tg2 = some el)
    (hin : el ∈ st.instrumented)
    (hnt : ∀ d, (el, d) ∉ st.timers)
    (hlt : t2 < t + LongPress.longPressDuration)
    (hdist : LongPress.moveThreshold ^ 2 < (q.1 - p.1) ^ 2 + (q.2 - p.2) ^ 2) :
    (∀ e ∈ (LongPress.lpStep st (.press tg1 (some p) t)).2, e.1 ≠ el) ∧
    LongPress.getEntry el
      (LongPress.lpStep st (.press tg1 (some p) t)).1.timers =
        some (t + LongPress.longPressDuration) ∧
    LongPress.getEntry el
      (LongPress.lpStep st (.press tg1 (some p) t)).1.startPositions = some p ∧
    (∀ e ∈ (LongPress.lpStep (LongPress.lpStep st (.press tg1 (some p) t)).1
        (.move tg2 (some q) t2)).2, e.1 ≠ el) ∧
    LongPress.getEntry el
      (LongPress.lpStep (LongPress.lpStep st (.press tg1 (some p) t)).1
        (.move tg2 (some q) t2)).1.timers = none ∧
    LongPress.getEntry el
      (LongPress.lpStep (LongPress.lpStep st (.press tg1 (some p) t)).1
        (.move tg2 (some q) t2)).1.startPositions = none ∧
    (∀ evs : List LongPress.LPEvent,
      (∀ ev ∈ evs, ¬ LongPress.LPEvent.pressResolvesTo el ev) →
      ∀ e ∈ (LongPress.lpRun
          (LongPress.lpStep (LongPress.lpStep st (.press tg1 (some p) t)).1
            (.move tg2 (some q) t2)).1 evs).2 ++
        LongPress.lpFlush (LongPress.lpRun
          (LongPress.lpStep (LongPress.lpStep st (.press tg1 (some p) t)).1
            (.move tg2 (some q) t2)).1 evs).1, e.1 ≠ el) := by
  have hf1t : ∀ d, (el, d) ∉ (LongPress.fireDue t st).1.timers := by
    intro d hd
    exact hnt d (List.mem_filter.mp hd).1
  have hs1 : (LongPress.lpStep st (.press tg1 (some p) t)).1 =
      { (LongPress.fireDue t st).1 with
        startPositions := LongPress.setEntry el p ((LongPress.fireDue t st).1.startPositions),
        timers := LongPress.setEntry el (t + LongPress.longPressDuration)
          ((LongPress.fireDue t st).1.timers) } := by
    simp only [LongPress.lpStep, LongPress.lpHandle, LongPress.LPEvent.time, h1]
    rw [if_pos (show el ∈ (LongPress.fireDue t st).1.instrumented from hin)]
  have hs1t : ∀ d2, (el, d2) ∈ ({ (LongPress.fireDue t st).1 with
        startPositions := LongPress.setEntry el p ((LongPress.fireDue t st).1.startPositions),
        timers := LongPress.setEntry el (t + LongPress.longPressDuration)
          ((LongPress.fireDue t st).1.timers) }).timers →
      d2 = t + LongPress.longPressDuration := by
    intro d2 hd2
    rcases LongPress.mem_setEntry hd2 with h | h
    · exact absurd h (hf1t d2)
    · exact congrArg Prod.snd h
  have hs2 : (LongPress.lpStep ({ (LongPress.fireDue t st).1 with
        startPositions := LongPress.setEntry el p ((LongPress.fireDue t st).1.startPositions),
        timers := LongPress.setEntry el (t + LongPress.longPressDuration)
          ((LongPress.fireDue t st).1.timers) }) (.move tg2 (some q) t2)).1 =
      { (LongPress.fireDue t2 ({ (LongPress.fireDue t st).1 with
        startPositions := LongPress.setEntry el p ((LongPress.fireDue t st).1.startPositions),
        timers := LongPress.setEntry el (t + LongPress.longPressDuration)
          ((LongPress.fireDue t st).1.timers) })).1 with
        timers := LongPress.delEntry el
          (LongPress.fireDue t2 ({ (LongPress.fireDue t st).1 with
        startPositions := LongPress.setEntry el p ((LongPress.fireDue t st).1.startPositions),
        timers := LongPress.setEntry el (t + LongPress.longPressDuration)
          ((LongPress.fireDue t st).1.timers) })).1.timers,
        startPositions := LongPress.delEntry el
          (LongPress.fireDue t2 ({ (LongPress.fireDue t st).1 with
        startPositions := LongPress.setEntry el p ((LongPress.fireDue t st).1.startPositions),
        timers := LongPress.setEntry el (t + LongPress.longPressDuration)
          ((LongPress.fireDue t st).1.timers) })).1.startPositions } := by
    simp only [LongPress.lpStep, LongPress.lpHandle, LongPress.LPEvent.time, h2]
    rw [if_pos (show el ∈
      (LongPress.fireDue t2 ({ (LongPress.fireDue t st).1 with
        startPositions := LongPress.setEntry el p ((LongPress.fireDue t st).1.startPositions),
        timers := LongPress.setEntry el (t + LongPress.longPressDuration)
          ((LongPress.fireDue t st).1.timers) })).1.instrumented from hin)]
    rw [show LongPress.getEntry el
      (LongPress.fireDue t2 ({ (LongPress.fireDue t st).1 with
        startPositions := LongPress.setEntry el p ((LongPress.fireDue t st).1.startPositions),
        timers := LongPress.setEntry el (t + LongPress.longPressDuration)
          ((LongPress.fireDue t st).1.timers) })).1.startPositions = some p from
      LongPress.getEntry_setEntry el p ((LongPress.fireDue t st).1.startPositions)]
    simp only [Option.getD_some]
    rw [if_pos hdist]
  refine ⟨LongPress.fireDue_no_el el st t hnt, ?_, ?_, ?_, ?_, ?_, ?_⟩
  · rw [hs1]
    exact LongPress.getEntry_setEntry el _ _
  · rw [hs1]
    exact LongPress.getEntry_setEntry el _ _
  · rw [hs1]
    apply LongPress.fireDue_no_el_late
    intro d hd
    rw [hs1t d hd]
    simp only [LongPress.LPEvent.time]
    omega
  · rw [hs1, hs2]
    exact LongPress.getEntry_delEntry el _
  · rw [hs1, hs2]
    exact LongPress.getEntry_delEntry el _
  · intro evs hnp
    rw [hs1, hs2]
    refine (LongPress.lpRun_no_el el _ evs ?_ hnp).2
    intro d
    exact LongPress.not_mem_delEntry el d _

/-- Witness for C7: press on the image at (0, 0) at time 1, move to
(20, 0) at time 100 (distance 20 beyond the threshold 10, well before the
timer deadline 501). -/
theorem c7_move_beyond_threshold_cancels_witness :
    (∀ e ∈ (LongPress.lpStep (LongPress.lpInit [LongPress.imgElem])
        (.press LongPress.imgElem (some (0, 0)) 1)).2, e.1 ≠ LongPress.imgElem) ∧
    LongPress.getEntry LongPress.imgElem
      (LongPress.lpStep (LongPress.lpInit [LongPress.imgElem])
        (.press LongPress.imgElem (some (0, 0)) 1)).1.timers =
        some (1 + LongPress.longPressDuration) ∧
    LongPress.getEntry LongPress.imgElem
      (LongPress.lpStep (LongPress.lpInit [LongPress.imgElem])
        (.press LongPress.imgElem (some (0, 0)) 1)).1.startPositions = some (0, 0) ∧
    (∀ e ∈ (LongPress.lpStep (LongPress.lpStep (LongPress.lpInit [LongPress.imgElem])
        (.press LongPress.imgElem (some (0, 0)) 1)).1
        (.move LongPress.imgElem (some (20, 0)) 100)).2, e.1 ≠ LongPress.imgElem) ∧
    LongPress.getEntry LongPress.imgElem
      (LongPress.lpStep (LongPress.lpStep (LongPress.lpInit [LongPress.imgElem])
        (.press LongPress.imgElem (some (0, 0)) 1)).1
        (.move LongPress.imgElem (some (20, 0)) 100)).1.timers = none ∧
    LongPress.getEntry LongPress.imgElem
      (LongPress.lpStep (LongPress.lpStep (LongPress.lpInit [LongPress.imgElem])
        (.press LongPress.imgElem (some (0, 0)) 1)).1
        (.move LongPress.imgElem (some (20, 0)) 100)).1.startPositions = none ∧
    (∀ evs : List LongPress.LPEvent,
      (∀ ev ∈ evs, ¬ LongPress.LPEvent.pressResolvesTo LongPress.imgElem ev) →
      ∀ e ∈ (LongPress.lpRun
          (LongPress.lpStep (LongPress.lpStep (LongPress.lpInit [LongPress.imgElem])
            (.press LongPress.imgElem (some (0, 0)) 1)).1
            (.move LongPress.imgElem (some (20, 0)) 100)).1 evs).2 ++
        LongPress.lpFlush (LongPress.lpRun
          (LongPress.lpStep (LongPress.lpStep (LongPress.lpInit [LongPress.imgElem])
            (.press LongPress.imgElem (some (0, 0)) 1)).1
            (.move LongPress.imgElem (some (20, 0)) 100)).1 evs).1,
        e.1 ≠ LongPress.imgElem) :=
  c7_move_beyond_threshold_cancels (LongPress.lpInit [LongPress.imgElem])
    LongPress.imgElem LongPress.imgElem LongPress.imgElem (0, 0) (20, 0) 1 100
    rfl rfl (by decide) (by intro d hd; simp [LongPress.lpInit] at hd)
    (by decide) (by norm_num [LongPress.moveThreshold])

/-- C8: a long-press timer that elapses while the document has a
non-empty text selection emits nothing (both in timer firing and in the
final flush); with an empty selection the emitted payload is the image
source for an image target and the outer markup of the nearest enclosing
table for a table or table-descendant target. -/
theorem c8_selection_vetoes_long_press :
    (∀ (st : LongPress.LPState) (t : Nat), 0 < st.selection.length →
      (LongPress.fireDue t st).2 = [] ∧ LongPress.lpFlush st = []) ∧
    (∀ (sel : String) (tg : LongPress.LPElem), sel.length = 0 →
      (tg.node.localName = "img" →
        LongPress.handleLongPress sel tg = some (.image tg.node.src)) ∧
      (tg.node.localName ≠ "img" →
        ∀ tbl, tg.closestTable = some tbl →
          LongPress.handleLongPress sel tg = some (.table tbl.outerHTML))) := by
  constructor
  · intro st t hsel
    have hnone : ∀ el, LongPress.handleLongPress st.selection el = none := by
      intro el
      unfold LongPress.handleLongPress
      rw [if_pos hsel]
    constructor
    · refine List.filterMap_eq_nil_iff.mpr ?_
      intro q _
      rw [hnone q.1]
      rfl
    · refine List.filterMap_eq_nil_iff.mpr ?_
      intro q _
      rw [hnone q.1]
      rfl
  · intro sel tg hsel
    have hns : ¬ 0 < sel.length := by omega
    constructor
    · intro himg
      unfold LongPress.handleLongPress
      rw [if_neg hns, if_pos himg]
    · intro himg tbl htbl
      unfold LongPress.handleLongPress
      rw [if_neg hns, if_neg himg, htbl]

/-- Witness for C8: the armed timer is silent while "x" is selected, and
with no selection an image press emits its source and a td press emits
the enclosing table markup. -/
theorem c8_selection_vetoes_long_press_witness :
    ((LongPress.fireDue 10 c8wSt).2 = [] ∧ LongPress.lpFlush c8wSt = []) ∧
    LongPress.handleLongPress "" LongPress.imgElem = some (.image "pic") ∧
    LongPress.handleLongPress "" tdElem = some (.table "<table/>") :=
  ⟨c8_selection_vetoes_long_press.1 c8wSt 10 (by decide),
   (c8_selection_vetoes_long_press.2 "" LongPress.imgElem rfl).1 rfl,
   (c8_selection_vetoes_long_press.2 "" tdElem rfl).2 (by decide) _ rfl⟩
